import Mathlib

/-!
Elastic-net regularisation path driver (`src/src/Enet.cpp`)

A shallow embedding of `write_beta_matrix` and `admm_enet`.

* Scalars (`double`) are an arbitrary type `α` carrying the arithmetic the code uses
  (`+ - * /`, the literal `0.0`, and the `int → double` conversion).  Statements made
  "in exact real arithmetic" instantiate `α := ℝ` with `Real.log` and `Real.exp`.
* The classes `DataStd` and `ADMMEnet` are declared in headers that are not part of
  the source tree; their member functions are taken as parameters (`DataStdOps`,
  `ADMMEnetOps`) acting on explicit object states `D` and `S`.
* The value returned by `admm_enet` is accompanied by the state in which the local
  object `solver` is left.  Which member functions were called on it, with which
  arguments and in which order, is read off a solver that keeps a record of the calls
  made on it (`ADMMEnetOps.recording`).
-/

namespace Enet

/-! ## Data model -/

/-- Sparse vector `Eigen::SparseVector<double>`: its length and its stored
(index, value) pairs in storage order, with the class invariant on the indices. -/
structure SpVec (α : Type) where
  size : Nat
  entries : List (Nat × α)
  /-- Eigen keeps the stored indices strictly increasing. -/
  sorted : (entries.map Prod.fst).Pairwise (fun a b => a < b)

/-- Stored indices of a sparse vector, in storage order. -/
def SpVec.indices {α : Type} (v : SpVec α) : List Nat :=
  v.entries.map Prod.fst

/-- Sparse matrix `Eigen::SparseMatrix<double>`: its shape and its stored
(row, column, value) triplets, most recently inserted first. -/
structure SpMat (α : Type) where
  rows : Nat
  cols : Nat
  entries : List (Nat × Nat × α)

/-- Constructor `SpMat(rows, cols)`: an empty matrix of the given shape. -/
def SpMat.create {α : Type} (rows cols : Nat) : SpMat α :=
  { rows := rows, cols := cols, entries := [] }

/-- Assignment `m.insert(row, col) = v`: stores a new nonzero (Eigen requires that
the position holds none yet). -/
def SpMat.insert {α : Type} (m : SpMat α) (row col : Nat) (v : α) : SpMat α :=
  { m with entries := (row, col, v) :: m.entries }

/-- Entry `(row, col)` of a sparse matrix: the stored value, or zero. -/
def SpMat.coeff {α : Type} [Zero α] (m : SpMat α) (row col : Nat) : α :=
  match m.entries.find? (fun e => e.1 == row && e.2.1 == col) with
  | some e => e.2.2
  | none => 0

/-- Call `m.makeCompressed()`: switches the storage layout; shape and stored
values are left as they are. -/
def SpMat.makeCompressed {α : Type} (m : SpMat α) : SpMat α := m

/-- Dense matrix `Eigen::MatrixXd`: shape and column-major data. -/
structure MatrixXd (α : Type) where
  rows : Nat
  cols : Nat
  data : List α

/-- Member functions of class `DataStd` (header `DataStd.h`), as used by `admm_enet`. -/
structure DataStdOps (α D : Type) where
  /-- `DataStd(n, p, standardize, intercept)` -/
  create : Nat → Nat → Bool → Bool → D
  /-- `standardize(X, y)`: updates the object and both arguments in place -/
  standardize : D → MatrixXd α → List α → D × MatrixXd α × List α
  /-- `get_scaleY()` -/
  get_scaleY : D → α
  /-- `recover(beta0, coef)`: updates both arguments in place -/
  recover : D → α → SpVec α → α × SpVec α

/-- Member functions of class `ADMMEnet` (header `ADMMEnet.h`), as used by `admm_enet`. -/
structure ADMMEnetOps (α S : Type) where
  /-- `ADMMEnet(datX, datY, alpha, eps_abs, eps_rel)` -/
  create : MatrixXd α → List α → α → α → α → S
  /-- `get_lambda_zero()` -/
  get_lambda_zero : S → α
  /-- `init(lambda, rho_ratio)` -/
  init : S → α → α → S
  /-- `init_warm(lambda)` -/
  init_warm : S → α → S
  /-- `solve(maxit)`: new solver state and the returned iteration count -/
  solve : S → Int → S × Int
  /-- `get_x()` -/
  get_x : S → SpVec α

/-- Option record `opts_`. -/
structure Opts (α : Type) where
  maxit : Int
  eps_abs : α
  eps_rel : α
  rho_ratio : α

/-! ## `write_beta_matrix` (Enet.cpp 25–33) -/

/-- Writes the intercept at row 0 and every stored coefficient `i` at row `i + 1`
of column `col`. -/
def write_beta_matrix {α : Type} (betas : SpMat α) (col : Nat) (beta0 : α)
    (coef : SpVec α) : SpMat α :=
  coef.entries.foldl (fun b e => b.insert (e.1 + 1) col e.2) (betas.insert 0 col beta0)

/-! ## `admm_enet` (Enet.cpp 35–132) -/

/-- Values of `Eigen::DenseBase::LinSpaced(size, low, high)` for `size ≥ 0`:
`size` equally spaced values from `low` to `high`; for `size = 1` the single
value `high`. -/
def LinSpaced {α : Type} [Add α] [Sub α] [Mul α] [Div α] [NatCast α]
    (size : Nat) (low high : α) : List α :=
  if size = 1 then [high]
  else (List.range size).map
    (fun (i : Nat) => low + (i : α) * ((high - low) / ((size - 1 : Nat) : α)))

/-- Call `v.setLinSpaced(size, low, high)` with an `int` size; a negative size is
outside Eigen's contract and yields no vector. -/
def setLinSpaced {α : Type} [Add α] [Sub α] [Mul α] [Div α] [NatCast α]
    (size : Int) (low high : α) : Option (List α) :=
  if size < 0 then none else some (LinSpaced size.toNat low high)

/-- Local variables of the path loop that change from one iteration to the next. -/
structure LoopState (α S : Type) where
  solver : S
  beta : SpMat α
  niter : List Int

/-- Body of the path loop (Enet.cpp 107–117) at index `i` for the value `lam = lambda[i]`. -/
def path_step {α D S : Type} [Mul α] [Div α] [Zero α] [NatCast α]
    (std : DataStdOps α D) (sol : ADMMEnetOps α S) (datstd : D)
    (n : Nat) (rho_ratio : α) (maxit : Int) (i : Nat) (lam : α) (st : LoopState α S) :
    LoopState α S :=
  let ilambda := lam * (n : α) / std.get_scaleY datstd
  let s1 := if i = 0 then sol.init st.solver ilambda rho_ratio
            else sol.init_warm st.solver ilambda
  let r := sol.solve s1 maxit
  let res := sol.get_x r.1
  let rec_ := std.recover datstd 0 res
  { solver := r.1
    beta := write_beta_matrix st.beta i rec_.1 rec_.2
    niter := st.niter.set i r.2 }

/-- Loop `for(int i = 0; i < nlambda; i++)` (Enet.cpp 105–118), started at index `i`
with the values `lambda[i], lambda[i+1], ...` still to be processed. -/
def path_loop {α D S : Type} [Mul α] [Div α] [Zero α] [NatCast α]
    (std : DataStdOps α D) (sol : ADMMEnetOps α S) (datstd : D)
    (n : Nat) (rho_ratio : α) (maxit : Int) :
    Nat → List α → LoopState α S → LoopState α S
  | _, [], st => st
  | i, lam :: rest, st =>
    path_loop std sol datstd n rho_ratio maxit (i + 1) rest
      (path_step std sol datstd n rho_ratio maxit i lam st)

/-- Standardizer object and standardized data after Enet.cpp 75–76. -/
def admm_enet_datstd {α D : Type} (std : DataStdOps α D) (x_ : MatrixXd α) (y_ : List α)
    (standardize_ intercept_ : Bool) : D × MatrixXd α × List α :=
  std.standardize (std.create x_.rows x_.cols standardize_ intercept_) x_ y_

/-- Solver object after its construction at Enet.cpp 83. -/
def admm_enet_solver {α D S : Type} (std : DataStdOps α D) (sol : ADMMEnetOps α S)
    (x_ : MatrixXd α) (y_ : List α) (standardize_ intercept_ : Bool) (alpha_ : α)
    (opts_ : Opts α) : S :=
  let d := admm_enet_datstd std x_ y_ standardize_ intercept_
  sol.create d.2.1 d.2.2 alpha_ opts_.eps_abs opts_.eps_rel

/-- The value `lmax` of Enet.cpp 92. -/
def admm_enet_lmax {α D S : Type} [Mul α] [Div α] [NatCast α]
    (std : DataStdOps α D) (sol : ADMMEnetOps α S) (datstd : D) (solver : S) (n : Nat) : α :=
  sol.get_lambda_zero solver / (n : α) * std.get_scaleY datstd

/-- The grid `lambda` after Enet.cpp 90–97. -/
def admm_enet_lambda {α D S : Type} [Add α] [Sub α] [Mul α] [Div α] [NatCast α]
    (log exp : α → α) (std : DataStdOps α D) (sol : ADMMEnetOps α S) (datstd : D)
    (solver : S) (n : Nat) (lambda_ : List α) (nlambda_ : Int) (lmin_ratio_ : α) :
    Option (List α) :=
  if lambda_.length < 1 then
    let lmax := admm_enet_lmax std sol datstd solver n
    let lmin := lmin_ratio_ * lmax
    (setLinSpaced nlambda_ (log lmax) (log lmin)).map (List.map exp)
  else some lambda_

/-- The list returned by `admm_enet` (`lambda`, `beta`, `niter`), together with the
state in which the local object `solver` is left. -/
structure Result (α S : Type) where
  lambda : List α
  beta : SpMat α
  niter : List Int
  solver : S

/-- Enet.cpp 99–129: allocation of the outputs, the path loop over the grid
`lambda`, compression, and the returned list. -/
def admm_enet_path {α D S : Type} [Mul α] [Div α] [Zero α] [NatCast α]
    (std : DataStdOps α D) (sol : ADMMEnetOps α S) (datstd : D) (solver : S)
    (n p : Nat) (rho_ratio : α) (maxit : Int) (lambda : List α) : Result α S :=
  let nlambda := lambda.length
  let st := path_loop std sol datstd n rho_ratio maxit 0 lambda
    { solver := solver
      beta := SpMat.create (p + 1) nlambda
      niter := List.replicate nlambda 0 }
  { lambda := lambda
    beta := st.beta.makeCompressed
    niter := st.niter
    solver := st.solver }

/-- The entry point `admm_enet`. -/
def admm_enet {α D S : Type} [Add α] [Sub α] [Mul α] [Div α] [Zero α] [NatCast α]
    (log exp : α → α) (std : DataStdOps α D) (sol : ADMMEnetOps α S)
    (x_ : MatrixXd α) (y_ : List α) (lambda_ : List α) (nlambda_ : Int) (lmin_ratio_ : α)
    (standardize_ intercept_ : Bool) (alpha_ : α) (opts_ : Opts α) : Option (Result α S) :=
  let n := x_.rows
  let p := x_.cols
  let datstd := (admm_enet_datstd std x_ y_ standardize_ intercept_).1
  let solver := admm_enet_solver std sol x_ y_ standardize_ intercept_ alpha_ opts_
  match admm_enet_lambda log exp std sol datstd solver n lambda_ nlambda_ lmin_ratio_ with
  | none => none
  | some lambda =>
    some (admm_enet_path std sol datstd solver n p opts_.rho_ratio opts_.maxit lambda)

/-! ## A small concrete instance -/

/-- A standardizer that leaves the data alone, has response scale `1`, and whose
`recover` returns the sum of the stored values as intercept. -/
def toyStd (α : Type) [Add α] [One α] : DataStdOps α Unit where
  create := fun _ _ _ _ => ()
  standardize := fun d X y => (d, X, y)
  get_scaleY := fun _ => 1
  recover := fun _ b v => (v.entries.foldl (fun a e => a + e.2) b, v)

/-- A solver whose state is the list of penalties it was initialised with (most
recent first); `solve` reports one more iteration than there are penalties, capped at
`maxit`, and `get_x` stores penalty `k` at index `k`. -/
def toySol (α : Type) [One α] : ADMMEnetOps α (List α) where
  create := fun _ _ _ _ _ => []
  get_lambda_zero := fun _ => 1
  init := fun _ l _ => [l]
  init_warm := fun s l => l :: s
  solve := fun s m => (s, min m (s.length + 1))
  get_x := fun s =>
    { size := s.length
      entries := s.reverse.enum
      sorted := by rw [List.enum_map_fst]; exact List.pairwise_lt_range _ }

/-- A 2×3 design matrix. -/
def toyX (α : Type) [Zero α] : MatrixXd α :=
  { rows := 2, cols := 3, data := List.replicate 6 0 }

/-- Options with iteration cap 3. -/
def toyOpts (α : Type) [One α] : Opts α :=
  { maxit := 3, eps_abs := 1, eps_rel := 1, rho_ratio := 1 }

/-! ## Specification-side definitions -/

/-- Column `j` of `m` holds intercept `b0` at row 0, each stored coefficient `i` of
`res` at row `i + 1`, and zero everywhere else. -/
def ColumnIs {α : Type} [Zero α] (m : SpMat α) (j : Nat) (b0 : α) (res : SpVec α) : Prop :=
  m.coeff 0 j = b0 ∧
  (∀ e ∈ res.entries, m.coeff (e.1 + 1) j = e.2) ∧
  (∀ r, r ≠ 0 → (∀ i ∈ res.indices, r ≠ i + 1) → m.coeff r j = 0)

/-- Solver state on which `solve` runs at path point `i`, as the specification words it:
`init` with the penalty and `rho_ratio` for the first path point, `init_warm` with the
penalty for every later one, applied to the state `s` left by the previous point. -/
def spec_start {α S : Type} (sol : ADMMEnetOps α S) (rho_ratio : α) (i : Nat) (penalty : α)
    (s : S) : S :=
  if i = 0 then sol.init s penalty rho_ratio else sol.init_warm s penalty

/-- What `solve(maxit)` returns (solver state and count) at each path point from index
`i` on, for the given penalties, starting from solver state `s`. -/
def spec_outcomes {α S : Type} (sol : ADMMEnetOps α S) (rho_ratio : α) (maxit : Int) :
    Nat → List α → S → List (S × Int)
  | _, [], _ => []
  | i, p :: rest, s =>
    sol.solve (spec_start sol rho_ratio i p s) maxit
      :: spec_outcomes sol rho_ratio maxit (i + 1) rest
          (sol.solve (spec_start sol rho_ratio i p s) maxit).1

/-- Solver state before path point `i`: the state after construction for `i = 0`, the
state left by the `solve` of the previous path point otherwise. -/
def spec_state_before {S : Type} (outs : List (S × Int)) (s0 : S) : Nat → S
  | 0 => s0
  | i + 1 => ((outs[i]?).map Prod.fst).getD s0

/-- What `solve(maxit)` returns at each path point of a call of `admm_enet` that uses the
grid `lambda`: the penalties are `lambda[i] * n / scaleY` and the first state is the
solver as constructed. -/
def spec_path_outcomes {α D S : Type} [Mul α] [Div α] [NatCast α]
    (std : DataStdOps α D) (sol : ADMMEnetOps α S) (x_ : MatrixXd α) (y_ : List α)
    (standardize_ intercept_ : Bool) (alpha_ : α) (opts_ : Opts α) (lambda : List α) :
    List (S × Int) :=
  spec_outcomes sol opts_.rho_ratio opts_.maxit 0
    (lambda.map (fun l => l * (x_.rows : α) /
      std.get_scaleY (admm_enet_datstd std x_ y_ standardize_ intercept_).1))
    (admm_enet_solver std sol x_ y_ standardize_ intercept_ alpha_ opts_)

/-- A call of a state-changing member function of the solver; `solve` carries its
argument and the count it returned. -/
inductive Call (α : Type) where
  | init (lambda rho_ratio : α)
  | init_warm (lambda : α)
  | solve (maxit : Int) (ret : Int)

/-- Recognises a cold initialisation. -/
def Call.isInit {α : Type} : Call α → Bool
  | Call.init _ _ => true
  | _ => false

/-- Recognises a warm initialisation. -/
def Call.isInitWarm {α : Type} : Call α → Bool
  | Call.init_warm _ => true
  | _ => false

/-- Recognises a `solve`. -/
def Call.isSolve {α : Type} : Call α → Bool
  | Call.solve _ _ => true
  | _ => false

/-- Penalty argument of an initialisation call. -/
def Call.penalty? {α : Type} : Call α → Option α
  | Call.init l _ => some l
  | Call.init_warm l => some l
  | Call.solve _ _ => none

/-- The same solver, keeping next to its state the record of the `init`, `init_warm` and
`solve` calls made on it, in order. -/
def ADMMEnetOps.recording {α S : Type} (sol : ADMMEnetOps α S) :
    ADMMEnetOps α (S × List (Call α)) where
  create := fun X y a ea er => (sol.create X y a ea er, [])
  get_lambda_zero := fun s => sol.get_lambda_zero s.1
  init := fun s l rho => (sol.init s.1 l rho, s.2 ++ [Call.init l rho])
  init_warm := fun s l => (sol.init_warm s.1 l, s.2 ++ [Call.init_warm l])
  solve := fun s m =>
    (((sol.solve s.1 m).1, s.2 ++ [Call.solve m (sol.solve s.1 m).2]), (sol.solve s.1 m).2)
  get_x := fun s => sol.get_x s.1

/-- Changes the representation of the solver state in a loop state. -/
def LoopState.mapSolver {α S T : Type} (f : S → T) (st : LoopState α S) : LoopState α T :=
  { solver := f st.solver, beta := st.beta, niter := st.niter }

/-- Changes the representation of the solver state in a result. -/
def Result.mapSolver {α S T : Type} (f : S → T) (r : Result α S) : Result α T :=
  { lambda := r.lambda, beta := r.beta, niter := r.niter, solver := f r.solver }

/-- Calls made by the loop from index `i` on, given for each remaining path point
the penalty handed to the solver and the count `solve` returned. -/
def loopCalls {α : Type} (rho_ratio : α) (maxit : Int) : Nat → List (α × Int) → List (Call α)
  | _, [] => []
  | i, x :: rest =>
    (if i = 0 then Call.init x.1 rho_ratio else Call.init_warm x.1)
      :: Call.solve maxit x.2 :: loopCalls rho_ratio maxit (i + 1) rest

/-- Calls of the warm-started part of a path. -/
def warmCalls {α : Type} (maxit : Int) : List (α × Int) → List (Call α)
  | [] => []
  | x :: rest => Call.init_warm x.1 :: Call.solve maxit x.2 :: warmCalls maxit rest

/-- Call sequence of a path as the specification words it: `init`, `solve` for the
first path point, then `init_warm`, `solve` for each further one. -/
def spec_call_sequence {α : Type} (rho_ratio : α) (maxit : Int) :
    List (α × Int) → List (Call α)
  | [] => []
  | x :: rest => Call.init x.1 rho_ratio :: Call.solve maxit x.2 :: warmCalls maxit rest

/-- The same solver with every count returned by `solve` replaced by its image under `f`. -/
def ADMMEnetOps.mapCount {α S : Type} (sol : ADMMEnetOps α S) (f : Int → Int) :
    ADMMEnetOps α S :=
  { sol with solve := fun s m => ((sol.solve s m).1, f (sol.solve s m).2) }

/-- Two loop states that agree except for the counts recorded at indices below `i`,
which in the second are the images under `f` of those in the first. -/
structure CountRel {α S : Type} (f : Int → Int) (i : Nat) (st st2 : LoopState α S) : Prop where
  solver : st2.solver = st.solver
  beta : st2.beta = st.beta
  len : st2.niter.length = st.niter.length
  niter : ∀ j, j < i → st2.niter[j]? = (st.niter[j]?).map f

/-! ## Concrete runs of the small instance -/

/-- A run with the supplied grid `3, 2, 1`. -/
def toyRun : Option (Result ℚ (List ℚ)) :=
  admm_enet id id (toyStd ℚ) (toySol ℚ) (toyX ℚ) [0, 0] [3, 2, 1] 5 (1 / 2) true true 1
    (toyOpts ℚ)

/-- The result of `toyRun`. -/
def toyResult : Result ℚ (List ℚ) :=
  admm_enet_path (toyStd ℚ) (toySol ℚ) () [] 2 3 1 3 [3, 2, 1]

/-- The same run on the recording solver. -/
def toyRecordedRun : Option (Result ℚ (List ℚ × List (Call ℚ))) :=
  admm_enet id id (toyStd ℚ) (toySol ℚ).recording (toyX ℚ) [0, 0] [3, 2, 1] 5 (1 / 2) true
    true 1 (toyOpts ℚ)

/-- The result of `toyRecordedRun`. -/
def toyRecordedResult : Result ℚ (List ℚ × List (Call ℚ)) :=
  admm_enet_path (toyStd ℚ) (toySol ℚ).recording () ([], []) 2 3 1 3 [3, 2, 1]

/-- Options with a zero iteration cap. -/
def zeroCapOpts : Opts ℚ :=
  { maxit := 0, eps_abs := 1, eps_rel := 1, rho_ratio := 1 }

/-! ## Lemmas on sparse storage -/

section storage
variable {α : Type}

theorem SpVec.indices_nodup (v : SpVec α) : (v.entries.map Prod.fst).Nodup :=
  v.sorted.imp (fun h => Nat.ne_of_lt h)

theorem foldl_insert_entries (col : Nat) (es : List (Nat × α)) (M : SpMat α) :
    (es.foldl (fun b e => b.insert (e.1 + 1) col e.2) M).entries
      = es.reverse.map (fun e => (e.1 + 1, col, e.2)) ++ M.entries := by
  induction es generalizing M with
  | nil => simp
  | cons e es ih =>
    rw [List.foldl_cons, ih]
    simp [SpMat.insert]

theorem foldl_insert_shape (col : Nat) (es : List (Nat × α)) (M : SpMat α) :
    (es.foldl (fun b e => b.insert (e.1 + 1) col e.2) M).rows = M.rows ∧
    (es.foldl (fun b e => b.insert (e.1 + 1) col e.2) M).cols = M.cols := by
  induction es generalizing M with
  | nil => simp
  | cons e es ih =>
    rw [List.foldl_cons, (ih _).1, (ih _).2]
    simp [SpMat.insert]

theorem write_beta_matrix_entries (M : SpMat α) (col : Nat) (b0 : α) (coef : SpVec α) :
    (write_beta_matrix M col b0 coef).entries
      = coef.entries.reverse.map (fun e => (e.1 + 1, col, e.2)) ++ (0, col, b0) :: M.entries := by
  rw [write_beta_matrix, foldl_insert_entries]
  simp [SpMat.insert]

theorem write_beta_matrix_rows (M : SpMat α) (col : Nat) (b0 : α) (coef : SpVec α) :
    (write_beta_matrix M col b0 coef).rows = M.rows := by
  rw [write_beta_matrix, (foldl_insert_shape _ _ _).1]
  simp [SpMat.insert]

theorem write_beta_matrix_cols (M : SpMat α) (col : Nat) (b0 : α) (coef : SpVec α) :
    (write_beta_matrix M col b0 coef).cols = M.cols := by
  rw [write_beta_matrix, (foldl_insert_shape _ _ _).2]
  simp [SpMat.insert]

/-- Looking up `(r, c)` among the triplets written for column `col ≠ c` finds nothing. -/
theorem find_new_other_col (col c r : Nat) (hc : c ≠ col) (es : List (Nat × α)) :
    (es.map (fun e => (e.1 + 1, col, e.2))).find?
      (fun (e : Nat × Nat × α) => e.1 == r && e.2.1 == c) = none := by
  rw [List.find?_eq_none]
  intro x hx
  obtain ⟨e, _, rfl⟩ := List.mem_map.1 hx
  simp [Ne.symm hc]

/-- After writing column `col`, every stored coefficient has its triplet in the matrix. -/
theorem write_beta_matrix_mem (M : SpMat α) (col : Nat) (b0 : α) (coef : SpVec α) :
    ∀ e ∈ coef.entries, (e.1 + 1, col, e.2) ∈ (write_beta_matrix M col b0 coef).entries := by
  intro e he
  rw [write_beta_matrix_entries]
  exact List.mem_append_left _ (List.mem_map.2 ⟨e, List.mem_reverse.2 he, rfl⟩)

variable [Zero α]

/-- Writing column `col` leaves every entry of every other column as it was. -/
theorem write_beta_matrix_frame (M : SpMat α) (col : Nat) (b0 : α) (coef : SpVec α)
    (r c : Nat) (hc : c ≠ col) :
    (write_beta_matrix M col b0 coef).coeff r c = M.coeff r c := by
  unfold SpMat.coeff
  rw [write_beta_matrix_entries, List.find?_append, find_new_other_col col c r hc]
  simp [List.find?_cons, Ne.symm hc]

/-- After writing column `col`, its row 0 holds the intercept. -/
theorem write_beta_matrix_intercept (M : SpMat α) (col : Nat) (b0 : α) (coef : SpVec α) :
    (write_beta_matrix M col b0 coef).coeff 0 col = b0 := by
  unfold SpMat.coeff
  rw [write_beta_matrix_entries, List.find?_append]
  have h1 : (coef.entries.reverse.map (fun e => (e.1 + 1, col, e.2))).find?
      (fun (e : Nat × Nat × α) => e.1 == 0 && e.2.1 == col) = none := by
    rw [List.find?_eq_none]
    intro x hx
    obtain ⟨e, _, rfl⟩ := List.mem_map.1 hx
    simp
  rw [h1]
  simp [List.find?_cons]

theorem write_beta_matrix_column (M : SpMat α) (col : Nat) (b0 : α) (coef : SpVec α)
    (hM : ∀ e ∈ M.entries, e.2.1 ≠ col) :
    ColumnIs (write_beta_matrix M col b0 coef) col b0 coef := by
  have hMnone : ∀ r, M.entries.find?
      (fun (e : Nat × Nat × α) => e.1 == r && e.2.1 == col) = none := by
    intro r
    rw [List.find?_eq_none]
    intro x hx
    have := hM x hx
    simp [this]
  refine ⟨write_beta_matrix_intercept M col b0 coef, ?_, ?_⟩
  · intro e he
    unfold SpMat.coeff
    rw [write_beta_matrix_entries, List.find?_append]
    cases hf : (coef.entries.reverse.map (fun e => (e.1 + 1, col, e.2))).find?
        (fun (x : Nat × Nat × α) => x.1 == e.1 + 1 && x.2.1 == col) with
    | none =>
      exfalso
      rw [List.find?_eq_none] at hf
      have := hf (e.1 + 1, col, e.2)
        (List.mem_map.2 ⟨e, List.mem_reverse.2 he, rfl⟩)
      simp at this
    | some x =>
      have hp := List.find?_some hf
      have hx := List.mem_of_find?_eq_some hf
      obtain ⟨e2, he2, rfl⟩ := List.mem_map.1 hx
      have he2 : e2 ∈ coef.entries := List.mem_reverse.1 he2
      have h1 : e2.1 = e.1 := by simpa using hp
      have := List.inj_on_of_nodup_map coef.indices_nodup he2 he h1
      simp [this]
  · intro r hr0 hri
    unfold SpMat.coeff
    rw [write_beta_matrix_entries, List.find?_append]
    have h1 : (coef.entries.reverse.map (fun e => (e.1 + 1, col, e.2))).find?
        (fun (e : Nat × Nat × α) => e.1 == r && e.2.1 == col) = none := by
      rw [List.find?_eq_none]
      intro x hx
      obtain ⟨e, he, rfl⟩ := List.mem_map.1 hx
      have : r ≠ e.1 + 1 :=
        hri e.1 (List.mem_map.2 ⟨e, List.mem_reverse.1 he, rfl⟩)
      simp [Ne.symm this]
    rw [h1]
    simp [List.find?_cons, Ne.symm hr0, hMnone]

theorem ColumnIs.of_coeff_eq {m : SpMat α} (m2 : SpMat α) {j : Nat} {b0 : α} {res : SpVec α}
    (h : ∀ r, m.coeff r j = m2.coeff r j) (hc : ColumnIs m2 j b0 res) : ColumnIs m j b0 res := by
  refine ⟨?_, ?_, ?_⟩
  · rw [h]; exact hc.1
  · intro e he; rw [h]; exact hc.2.1 e he
  · intro r hr hi; rw [h]; exact hc.2.2 r hr hi

end storage

/-! ## Lemmas on the path loop -/

section loop
variable {α D S : Type} [Mul α] [Div α] [Zero α] [NatCast α]
variable (std : DataStdOps α D) (sol : ADMMEnetOps α S) (datstd : D)
variable (n : Nat) (rho_ratio : α) (maxit : Int)

theorem path_loop_nil (i : Nat) (st : LoopState α S) :
    path_loop std sol datstd n rho_ratio maxit i [] st = st := rfl

theorem path_loop_cons (i : Nat) (lam : α) (rest : List α) (st : LoopState α S) :
    path_loop std sol datstd n rho_ratio maxit i (lam :: rest) st
      = path_loop std sol datstd n rho_ratio maxit (i + 1) rest
          (path_step std sol datstd n rho_ratio maxit i lam st) := rfl

theorem path_step_solver (i : Nat) (lam : α) (st : LoopState α S) :
    (path_step std sol datstd n rho_ratio maxit i lam st).solver
      = (sol.solve (spec_start sol rho_ratio i (lam * (n : α) / std.get_scaleY datstd)
          st.solver) maxit).1 := rfl

theorem path_step_niter (i : Nat) (lam : α) (st : LoopState α S) :
    (path_step std sol datstd n rho_ratio maxit i lam st).niter
      = st.niter.set i (sol.solve (spec_start sol rho_ratio i
          (lam * (n : α) / std.get_scaleY datstd) st.solver) maxit).2 := rfl

theorem path_step_beta (i : Nat) (lam : α) (st : LoopState α S) :
    (path_step std sol datstd n rho_ratio maxit i lam st).beta
      = write_beta_matrix st.beta i
          (std.recover datstd 0 (sol.get_x (sol.solve (spec_start sol rho_ratio i
            (lam * (n : α) / std.get_scaleY datstd) st.solver) maxit).1)).1
          (std.recover datstd 0 (sol.get_x (sol.solve (spec_start sol rho_ratio i
            (lam * (n : α) / std.get_scaleY datstd) st.solver) maxit).1)).2 := rfl

theorem loop_niter_length (i : Nat) (ls : List α) (st : LoopState α S) :
    (path_loop std sol datstd n rho_ratio maxit i ls st).niter.length = st.niter.length := by
  induction ls generalizing i st with
  | nil => rfl
  | cons lam rest ih => rw [path_loop_cons, ih, path_step_niter]; simp

theorem loop_niter_frame (i : Nat) (ls : List α) (st : LoopState α S) (j : Nat) (hj : j < i) :
    (path_loop std sol datstd n rho_ratio maxit i ls st).niter[j]? = st.niter[j]? := by
  induction ls generalizing i st with
  | nil => rfl
  | cons lam rest ih =>
    rw [path_loop_cons, ih (i + 1) _ (by omega), path_step_niter,
      List.getElem?_set_ne (by omega)]

theorem loop_beta_shape (i : Nat) (ls : List α) (st : LoopState α S) :
    (path_loop std sol datstd n rho_ratio maxit i ls st).beta.rows = st.beta.rows ∧
    (path_loop std sol datstd n rho_ratio maxit i ls st).beta.cols = st.beta.cols := by
  induction ls generalizing i st with
  | nil => exact ⟨rfl, rfl⟩
  | cons lam rest ih =>
    rw [path_loop_cons, (ih _ _).1, (ih _ _).2, path_step_beta]
    simp [write_beta_matrix_rows, write_beta_matrix_cols]

theorem loop_beta_frame (i : Nat) (ls : List α) (st : LoopState α S) (r c : Nat) (hc : c < i) :
    (path_loop std sol datstd n rho_ratio maxit i ls st).beta.coeff r c = st.beta.coeff r c := by
  induction ls generalizing i st with
  | nil => rfl
  | cons lam rest ih =>
    rw [path_loop_cons, ih (i + 1) _ (by omega), path_step_beta]
    exact write_beta_matrix_frame _ _ _ _ _ _ (by omega)

theorem loop_beta_mono (i : Nat) (ls : List α) (st : LoopState α S) :
    ∀ e ∈ st.beta.entries,
      e ∈ (path_loop std sol datstd n rho_ratio maxit i ls st).beta.entries := by
  induction ls generalizing i st with
  | nil => intro e he; exact he
  | cons lam rest ih =>
    intro e he
    rw [path_loop_cons]
    apply ih
    rw [path_step_beta, write_beta_matrix_entries]
    simp [he]

theorem path_step_cols (i : Nat) (lam : α) (st : LoopState α S)
    (hcols : ∀ e ∈ st.beta.entries, e.2.1 < i) :
    ∀ e ∈ (path_step std sol datstd n rho_ratio maxit i lam st).beta.entries, e.2.1 < i + 1 := by
  intro e he
  rw [path_step_beta, write_beta_matrix_entries] at he
  rcases List.mem_append.1 he with he | he
  · obtain ⟨x, _, rfl⟩ := List.mem_map.1 he
    simp
  · rcases List.mem_cons.1 he with he | he
    · subst he; simp
    · exact Nat.lt_succ_of_lt (hcols e he)

/-- The loop computes, at each index, the count and the column that the outcome of that
path point prescribes. -/
theorem loop_outcomes (i : Nat) (ls : List α) (st : LoopState α S)
    (hlen : i + ls.length ≤ st.niter.length)
    (hcols : ∀ e ∈ st.beta.entries, e.2.1 < i) :
    ∀ k o, (spec_outcomes sol rho_ratio maxit i
        (ls.map (fun l => l * (n : α) / std.get_scaleY datstd)) st.solver)[k]? = some o →
      (path_loop std sol datstd n rho_ratio maxit i ls st).niter[i + k]? = some o.2 ∧
      ColumnIs (path_loop std sol datstd n rho_ratio maxit i ls st).beta (i + k)
        (std.recover datstd 0 (sol.get_x o.1)).1 (std.recover datstd 0 (sol.get_x o.1)).2 ∧
      ∀ e ∈ (std.recover datstd 0 (sol.get_x o.1)).2.entries, (e.1 + 1, i + k, e.2) ∈
        (path_loop std sol datstd n rho_ratio maxit i ls st).beta.entries := by
  induction ls generalizing i st with
  | nil =>
    intro k o h
    simp [spec_outcomes] at h
  | cons lam rest ih =>
    intro k o h
    have hi : i < st.niter.length := by simp at hlen; omega
    rw [List.map_cons, spec_outcomes] at h
    cases k with
    | zero =>
      rw [List.getElem?_cons_zero] at h
      obtain rfl := Option.some.inj h
      simp only [Nat.add_zero]
      refine ⟨?_, ?_, ?_⟩
      · rw [path_loop_cons,
          loop_niter_frame std sol datstd n rho_ratio maxit (i + 1) rest _ i (by omega),
          path_step_niter]
        simp [hi]
      · apply ColumnIs.of_coeff_eq (write_beta_matrix st.beta i
          (std.recover datstd 0 (sol.get_x (sol.solve (spec_start sol rho_ratio i
            (lam * (n : α) / std.get_scaleY datstd) st.solver) maxit).1)).1
          (std.recover datstd 0 (sol.get_x (sol.solve (spec_start sol rho_ratio i
            (lam * (n : α) / std.get_scaleY datstd) st.solver) maxit).1)).2)
        · intro r
          rw [path_loop_cons,
            loop_beta_frame std sol datstd n rho_ratio maxit (i + 1) rest _ r i (by omega),
            path_step_beta]
        · apply write_beta_matrix_column
          intro e he
          exact Nat.ne_of_lt (hcols e he)
      · intro e he
        rw [path_loop_cons]
        apply loop_beta_mono
        rw [path_step_beta]
        exact write_beta_matrix_mem _ _ _ _ e he
    | succ k =>
      rw [List.getElem?_cons_succ, ← path_step_solver std sol datstd n rho_ratio maxit i lam st]
        at h
      have := ih (i + 1) (path_step std sol datstd n rho_ratio maxit i lam st)
        (by rw [path_step_niter]; simp at hlen ⊢; omega)
        (path_step_cols std sol datstd n rho_ratio maxit i lam st hcols) k o h
      have hidx : i + (k + 1) = i + 1 + k := by omega
      rw [path_loop_cons, hidx]
      exact this

end loop

section outcomes
variable {α S : Type} (sol : ADMMEnetOps α S) (rho_ratio : α) (maxit : Int)

theorem spec_outcomes_length (i : Nat) (pens : List α) (s : S) :
    (spec_outcomes sol rho_ratio maxit i pens s).length = pens.length := by
  induction pens generalizing i s with
  | nil => rfl
  | cons p rest ih => simp [spec_outcomes, ih]

theorem spec_outcomes_succ (i : Nat) (pens : List α) (s : S) (k : Nat) (o : S × Int) (p : α)
    (ho : (spec_outcomes sol rho_ratio maxit i pens s)[k]? = some o)
    (hp : pens[k + 1]? = some p) :
    (spec_outcomes sol rho_ratio maxit i pens s)[k + 1]?
      = some (sol.solve (sol.init_warm o.1 p) maxit) := by
  induction pens generalizing i s k with
  | nil => simp at hp
  | cons p0 rest ih =>
    rw [spec_outcomes] at ho ⊢
    rw [List.getElem?_cons_succ] at hp ⊢
    cases k with
    | zero =>
      rw [List.getElem?_cons_zero] at ho
      obtain rfl := Option.some.inj ho
      cases rest with
      | nil => simp at hp
      | cons p1 rest2 =>
        rw [List.getElem?_cons_zero] at hp
        obtain rfl := Option.some.inj hp
        rw [spec_outcomes, List.getElem?_cons_zero, spec_start, if_neg (Nat.succ_ne_zero i)]
    | succ k =>
      rw [List.getElem?_cons_succ] at ho
      exact ih (i + 1) _ k ho hp

/-- Each outcome is what `solve(maxit)` returns on the state obtained by `init` (first
path point) or `init_warm` (later ones) from the state before that path point. -/
theorem spec_outcomes_get (pens : List α) (s0 : S) (i : Nat) (p : α) (hp : pens[i]? = some p) :
    (spec_outcomes sol rho_ratio maxit 0 pens s0)[i]?
      = some (sol.solve (spec_start sol rho_ratio i p
          (spec_state_before (spec_outcomes sol rho_ratio maxit 0 pens s0) s0 i)) maxit) := by
  cases i with
  | zero =>
    cases pens with
    | nil => simp at hp
    | cons p0 rest =>
      rw [List.getElem?_cons_zero] at hp
      obtain rfl := Option.some.inj hp
      rw [spec_outcomes, List.getElem?_cons_zero]
      rfl
  | succ k =>
    have hk : k < (spec_outcomes sol rho_ratio maxit 0 pens s0).length := by
      rw [spec_outcomes_length]
      have := (List.getElem?_eq_some.1 hp).1
      omega
    have ho := List.getElem?_eq_getElem hk
    rw [spec_outcomes_succ sol rho_ratio maxit 0 pens s0 k _ p ho hp]
    simp [spec_start, spec_state_before, ho]

end outcomes
/-! ## Lemmas on call records -/

section calls
variable {α : Type} (rho_ratio : α) (maxit : Int)

theorem loopCalls_succ (i : Nat) (xs : List (α × Int)) :
    loopCalls rho_ratio maxit (i + 1) xs = warmCalls maxit xs := by
  induction xs generalizing i with
  | nil => rfl
  | cons x rest ih => simp [loopCalls, warmCalls, ih]

theorem loopCalls_zero (xs : List (α × Int)) :
    loopCalls rho_ratio maxit 0 xs = spec_call_sequence rho_ratio maxit xs := by
  cases xs with
  | nil => rfl
  | cons x rest => simp [loopCalls, spec_call_sequence, loopCalls_succ]

theorem loopCalls_length (i : Nat) (xs : List (α × Int)) :
    (loopCalls rho_ratio maxit i xs).length = 2 * xs.length := by
  induction xs generalizing i with
  | nil => rfl
  | cons x rest ih => simp [loopCalls, ih]; omega

theorem loopCalls_even (i : Nat) (xs : List (α × Int)) (j : Nat) (x : α × Int)
    (hx : xs[j]? = some x) :
    (loopCalls rho_ratio maxit i xs)[2 * j]?
      = some (if i + j = 0 then Call.init x.1 rho_ratio else Call.init_warm x.1) := by
  induction xs generalizing i j with
  | nil => simp at hx
  | cons y rest ih =>
    cases j with
    | zero =>
      simp at hx
      subst hx
      simp [loopCalls]
    | succ j =>
      simp at hx
      have := ih (i + 1) j hx
      have h2 : 2 * (j + 1) = 2 * j + 1 + 1 := by ring
      rw [h2, loopCalls, List.getElem?_cons_succ, List.getElem?_cons_succ, this]
      simp

theorem loopCalls_odd (i : Nat) (xs : List (α × Int)) (j : Nat) (x : α × Int)
    (hx : xs[j]? = some x) :
    (loopCalls rho_ratio maxit i xs)[2 * j + 1]? = some (Call.solve maxit x.2) := by
  induction xs generalizing i j with
  | nil => simp at hx
  | cons y rest ih =>
    cases j with
    | zero =>
      simp at hx
      subst hx
      simp [loopCalls]
    | succ j =>
      simp at hx
      have := ih (i + 1) j hx
      have h2 : 2 * (j + 1) + 1 = (2 * j + 1) + 1 + 1 := by ring
      rw [h2, loopCalls, List.getElem?_cons_succ, List.getElem?_cons_succ, this]

theorem warmCalls_counts (xs : List (α × Int)) :
    (warmCalls maxit xs).countP Call.isInit = 0 ∧
    (warmCalls maxit xs).countP Call.isInitWarm = xs.length ∧
    (warmCalls maxit xs).countP Call.isSolve = xs.length := by
  induction xs with
  | nil => simp [warmCalls]
  | cons x rest ih =>
    obtain ⟨h1, h2, h3⟩ := ih
    simp [warmCalls, List.countP_cons, Call.isInit, Call.isInitWarm, Call.isSolve, h1, h2, h3]

theorem loopCalls_penalties (i : Nat) (xs : List (α × Int)) :
    (loopCalls rho_ratio maxit i xs).filterMap Call.penalty? = xs.map Prod.fst := by
  induction xs generalizing i with
  | nil => rfl
  | cons x rest ih =>
    by_cases hi : i = 0 <;> simp [loopCalls, hi, Call.penalty?, ih]

end calls

/-! ## The recording solver -/

section recording
variable {α D S : Type} [Mul α] [Div α] [Zero α] [NatCast α]
variable (std : DataStdOps α D) (sol : ADMMEnetOps α S) (datstd : D)
variable (n : Nat) (rho_ratio : α) (maxit : Int)

/-- One loop iteration on the recording solver appends the initialisation call and the
`solve` call with the count that is stored in `niter`. -/
theorem path_step_recorded (i : Nat) (lam : α) (st : LoopState α (S × List (Call α))) :
    ∃ c, (path_step std sol.recording datstd n rho_ratio maxit i lam st).niter
        = st.niter.set i c ∧
      (path_step std sol.recording datstd n rho_ratio maxit i lam st).solver.2
        = st.solver.2 ++
          [if i = 0 then Call.init (lam * (n : α) / std.get_scaleY datstd) rho_ratio
            else Call.init_warm (lam * (n : α) / std.get_scaleY datstd), Call.solve maxit c] := by
  refine ⟨_, rfl, ?_⟩
  by_cases hi : i = 0 <;> simp [path_step, ADMMEnetOps.recording, hi]

theorem loop_recorded (i : Nat) (ls : List α) (st : LoopState α (S × List (Call α)))
    (hlen : i + ls.length ≤ st.niter.length) :
    (path_loop std sol.recording datstd n rho_ratio maxit i ls st).solver.2
      = st.solver.2 ++ loopCalls rho_ratio maxit i
          ((ls.map (fun l => l * (n : α) / std.get_scaleY datstd)).zip
            (((path_loop std sol.recording datstd n rho_ratio maxit i ls st).niter.drop i).take
              ls.length)) := by
  induction ls generalizing i st with
  | nil => simp [path_loop_nil, loopCalls]
  | cons lam rest ih =>
    obtain ⟨c, hn, hc⟩ := path_step_recorded std sol datstd n rho_ratio maxit i lam st
    have hi : i < st.niter.length := by simp at hlen; omega
    have hlt : i < (path_loop std sol.recording datstd n rho_ratio maxit i (lam :: rest)
        st).niter.length := by
      rw [loop_niter_length]; exact hi
    have hhead : (path_loop std sol.recording datstd n rho_ratio maxit i (lam :: rest)
        st).niter[i]? = some c := by
      rw [path_loop_cons,
        loop_niter_frame std sol.recording datstd n rho_ratio maxit (i + 1) rest _ i (by omega),
        hn]
      simp [hi]
    rw [List.getElem?_eq_getElem hlt] at hhead
    rw [List.drop_eq_getElem_cons hlt, Option.some.inj hhead]
    have hz : ∀ (a : α) (as : List α) (b : Int) (bs : List Int),
        (a :: as).zip (b :: bs) = (a, b) :: as.zip bs := fun _ _ _ _ => rfl
    rw [List.length_cons, List.take_succ_cons, List.map_cons, hz, loopCalls, path_loop_cons,
      ih (i + 1) _ (by rw [hn]; simp at hlen ⊢; omega), hc]
    simp

/-- Forgetting the record, an iteration on the recording solver is the iteration on the
solver itself. -/
theorem path_step_forget (i : Nat) (lam : α) (st : LoopState α (S × List (Call α))) :
    (path_step std sol.recording datstd n rho_ratio maxit i lam st).mapSolver Prod.fst
      = path_step std sol datstd n rho_ratio maxit i lam (st.mapSolver Prod.fst) := by
  by_cases hi : i = 0 <;> simp [path_step, ADMMEnetOps.recording, LoopState.mapSolver, hi]

theorem loop_forget (i : Nat) (ls : List α) (st : LoopState α (S × List (Call α))) :
    (path_loop std sol.recording datstd n rho_ratio maxit i ls st).mapSolver Prod.fst
      = path_loop std sol datstd n rho_ratio maxit i ls (st.mapSolver Prod.fst) := by
  induction ls generalizing i st with
  | nil => rfl
  | cons lam rest ih => rw [path_loop_cons, path_loop_cons, ih, path_step_forget]

end recording

/-! ## Independence of the path from the iteration counts -/

section counts
variable {α D S : Type} [Mul α] [Div α] [Zero α] [NatCast α]
variable (std : DataStdOps α D) (sol : ADMMEnetOps α S) (datstd : D)
variable (n : Nat) (rho_ratio : α) (maxit : Int) (f : Int → Int)

theorem path_step_countRel (i : Nat) (lam : α) (st st2 : LoopState α S)
    (h : CountRel f i st st2) :
    CountRel f (i + 1) (path_step std sol datstd n rho_ratio maxit i lam st)
      (path_step std (sol.mapCount f) datstd n rho_ratio maxit i lam st2) := by
  obtain ⟨h1, h2, h5, h6⟩ := h
  refine ⟨?_, ?_, ?_, ?_⟩
  · simp [path_step, ADMMEnetOps.mapCount, h1]
  · simp [path_step, ADMMEnetOps.mapCount, h1, h2]
  · simp [path_step, h5]
  · intro j hj
    simp only [path_step, ADMMEnetOps.mapCount, h1]
    rw [List.getElem?_set, List.getElem?_set]
    by_cases hij : i = j
    · subst hij
      simp [h5]
    · simp only [hij, if_false]
      exact h6 j (by omega)

theorem loop_countRel (i : Nat) (ls : List α) (st st2 : LoopState α S)
    (h : CountRel f i st st2) :
    CountRel f (i + ls.length) (path_loop std sol datstd n rho_ratio maxit i ls st)
      (path_loop std (sol.mapCount f) datstd n rho_ratio maxit i ls st2) := by
  induction ls generalizing i st st2 with
  | nil => simpa [path_loop_nil] using h
  | cons lam rest ih =>
    have := ih (i + 1) _ _ (path_step_countRel std sol datstd n rho_ratio maxit f i lam st st2 h)
    rw [path_loop_cons, path_loop_cons]
    simpa [Nat.add_assoc, Nat.add_comm 1] using this

end counts

/-! ## Lemmas on `admm_enet_path` and `admm_enet` -/

section pathspec
variable {α D S : Type} [Mul α] [Div α] [NatCast α]
variable (std : DataStdOps α D) (sol : ADMMEnetOps α S) (datstd : D) (solver : S)
variable (n : Nat) (rho_ratio : α) (maxit : Int) (lambda : List α)

/-- The outcome of path point `i` exists and is the `solve` return on the state
initialised from the state before that point with the penalty of `lambda[i]`. -/
theorem path_outcome_exists (i : Nat) (l : α) (hl : lambda[i]? = some l) :
    (spec_outcomes sol rho_ratio maxit 0
        (lambda.map (fun l => l * (n : α) / std.get_scaleY datstd)) solver)[i]?
      = some (sol.solve (spec_start sol rho_ratio i (l * (n : α) / std.get_scaleY datstd)
          (spec_state_before (spec_outcomes sol rho_ratio maxit 0
            (lambda.map (fun l => l * (n : α) / std.get_scaleY datstd)) solver) solver i))
          maxit) :=
  spec_outcomes_get sol rho_ratio maxit _ solver i _ (by rw [List.getElem?_map, hl]; rfl)

end pathspec

section path
variable {α D S : Type} [Mul α] [Div α] [Zero α] [NatCast α]
variable (std : DataStdOps α D) (sol : ADMMEnetOps α S) (datstd : D) (solver : S)
variable (n p : Nat) (rho_ratio : α) (maxit : Int) (lambda : List α)

theorem path_lambda :
    (admm_enet_path std sol datstd solver n p rho_ratio maxit lambda).lambda = lambda := rfl

theorem path_niter_length :
    (admm_enet_path std sol datstd solver n p rho_ratio maxit lambda).niter.length
      = lambda.length := by
  simp [admm_enet_path, loop_niter_length]

theorem path_beta_shape :
    (admm_enet_path std sol datstd solver n p rho_ratio maxit lambda).beta.rows = p + 1 ∧
    (admm_enet_path std sol datstd solver n p rho_ratio maxit lambda).beta.cols
      = lambda.length := by
  simp [admm_enet_path, SpMat.makeCompressed, loop_beta_shape, SpMat.create]

/-- Count and column of path point `k` in the returned value. -/
theorem path_outcomes (k : Nat) (o : S × Int)
    (h : (spec_outcomes sol rho_ratio maxit 0
      (lambda.map (fun l => l * (n : α) / std.get_scaleY datstd)) solver)[k]? = some o) :
    (admm_enet_path std sol datstd solver n p rho_ratio maxit lambda).niter[k]? = some o.2 ∧
    ColumnIs (admm_enet_path std sol datstd solver n p rho_ratio maxit lambda).beta k
      (std.recover datstd 0 (sol.get_x o.1)).1 (std.recover datstd 0 (sol.get_x o.1)).2 ∧
    ∀ e ∈ (std.recover datstd 0 (sol.get_x o.1)).2.entries, (e.1 + 1, k, e.2) ∈
      (admm_enet_path std sol datstd solver n p rho_ratio maxit lambda).beta.entries := by
  have := loop_outcomes std sol datstd n rho_ratio maxit 0 lambda
    ({ solver := solver, beta := SpMat.create (p + 1) lambda.length,
       niter := List.replicate lambda.length 0 } : LoopState α S)
    (by simp) (by simp [SpMat.create]) k o h
  simpa [admm_enet_path, SpMat.makeCompressed] using this

theorem path_recorded (log : List (Call α)) :
    (admm_enet_path std sol.recording datstd (solver, log) n p rho_ratio maxit lambda).solver.2
      = log ++ loopCalls rho_ratio maxit 0
          ((lambda.map (fun l => l * (n : α) / std.get_scaleY datstd)).zip
            (admm_enet_path std sol.recording datstd (solver, log) n p rho_ratio maxit
              lambda).niter) := by
  have h := loop_recorded std sol datstd n rho_ratio maxit 0 lambda
    ({ solver := (solver, log), beta := SpMat.create (p + 1) lambda.length,
       niter := List.replicate lambda.length 0 } : LoopState α (S × List (Call α))) (by simp)
  have hl := path_niter_length std sol.recording datstd (solver, log) n p rho_ratio maxit lambda
  simp only [admm_enet_path] at hl ⊢
  rw [h]
  simp only [List.drop_zero]
  rw [List.take_of_length_le (by omega)]

theorem path_recorded_length :
    (admm_enet_path std sol.recording datstd (solver, []) n p rho_ratio maxit lambda).solver.2.length
      = 2 * lambda.length := by
  rw [path_recorded, List.nil_append, loopCalls_length, List.length_zip, List.length_map,
    path_niter_length, Nat.min_self]

/-- The calls recorded for path point `i`. -/
theorem path_recorded_point (i : Nat) (l : α) (hl : lambda[i]? = some l) :
    ∃ k, (admm_enet_path std sol.recording datstd (solver, []) n p rho_ratio maxit
          lambda).niter[i]? = some k ∧
      (admm_enet_path std sol.recording datstd (solver, []) n p rho_ratio maxit
          lambda).solver.2[2 * i]?
        = some (if i = 0 then Call.init (l * (n : α) / std.get_scaleY datstd) rho_ratio
            else Call.init_warm (l * (n : α) / std.get_scaleY datstd)) ∧
      (admm_enet_path std sol.recording datstd (solver, []) n p rho_ratio maxit
          lambda).solver.2[2 * i + 1]? = some (Call.solve maxit k) := by
  have hi : i < lambda.length := (List.getElem?_eq_some.1 hl).1
  have hn := path_niter_length std sol.recording datstd (solver, []) n p rho_ratio maxit lambda
  have hc := path_recorded std sol datstd solver n p rho_ratio maxit lambda []
  rw [List.nil_append] at hc
  obtain ⟨k, hk⟩ : ∃ k, (admm_enet_path std sol.recording datstd (solver, []) n p rho_ratio
      maxit lambda).niter[i]? = some k :=
    ⟨_, List.getElem?_eq_getElem (by omega)⟩
  have hz : ((lambda.map (fun l => l * (n : α) / std.get_scaleY datstd)).zip
      (admm_enet_path std sol.recording datstd (solver, []) n p rho_ratio maxit
        lambda).niter)[i]? = some (l * (n : α) / std.get_scaleY datstd, k) := by
    rw [List.getElem?_zip_eq_some]
    exact ⟨by rw [List.getElem?_map, hl]; rfl, hk⟩
  refine ⟨k, hk, ?_, ?_⟩
  · rw [hc, loopCalls_even _ _ 0 _ i _ hz]
    simp
  · rw [hc, loopCalls_odd _ _ 0 _ i _ hz]

theorem path_forget :
    (admm_enet_path std sol.recording datstd (solver, []) n p rho_ratio maxit
        lambda).mapSolver Prod.fst
      = admm_enet_path std sol datstd solver n p rho_ratio maxit lambda := by
  have h := loop_forget std sol datstd n rho_ratio maxit 0 lambda
    ({ solver := (solver, []), beta := SpMat.create (p + 1) lambda.length,
       niter := List.replicate lambda.length 0 } : LoopState α (S × List (Call α)))
  simp only [admm_enet_path, Result.mapSolver]
  simp only [LoopState.mapSolver] at h
  rw [← h]

theorem path_mapCount (f : Int → Int) :
    admm_enet_path std (sol.mapCount f) datstd solver n p rho_ratio maxit lambda
      = { admm_enet_path std sol datstd solver n p rho_ratio maxit lambda with
          niter := (admm_enet_path std sol datstd solver n p rho_ratio maxit lambda).niter.map
            f } := by
  have h := loop_countRel std sol datstd n rho_ratio maxit f 0 lambda
    ({ solver := solver, beta := SpMat.create (p + 1) lambda.length,
       niter := List.replicate lambda.length 0 } : LoopState α S)
    ({ solver := solver, beta := SpMat.create (p + 1) lambda.length,
       niter := List.replicate lambda.length 0 } : LoopState α S)
    ⟨rfl, rfl, rfl, fun j hj => absurd hj (Nat.not_lt_zero j)⟩
  obtain ⟨h1, h2, h5, h6⟩ := h
  have hl := path_niter_length std sol datstd solver n p rho_ratio maxit lambda
  simp only [admm_enet_path] at hl ⊢
  rw [h1, h2]
  congr 1
  apply List.ext_getElem?
  intro j
  by_cases hj : j < lambda.length
  · rw [h6 j (by omega)]; simp
  · rw [List.getElem?_eq_none (by omega), List.getElem?_eq_none (by simp; omega)]

end path

section grid
variable {α D S : Type} [Add α] [Sub α] [Mul α] [Div α] [NatCast α]
variable (log exp : α → α) (std : DataStdOps α D) (sol : ADMMEnetOps α S)
variable (lambda_ : List α) (nlambda_ : Int) (lmin_ratio_ : α)

theorem admm_enet_lambda_supplied (datstd : D) (solver : S) (n : Nat) (h : lambda_ ≠ []) :
    admm_enet_lambda log exp std sol datstd solver n lambda_ nlambda_ lmin_ratio_
      = some lambda_ := by
  have : ¬ lambda_.length < 1 := by
    cases lambda_ with
    | nil => exact absurd rfl h
    | cons a l => simp
  simp [admm_enet_lambda, this]

theorem admm_enet_lambda_generated (datstd : D) (solver : S) (n : Nat) (h : 0 ≤ nlambda_) :
    admm_enet_lambda log exp std sol datstd solver n [] nlambda_ lmin_ratio_
      = some ((LinSpaced nlambda_.toNat (log (admm_enet_lmax std sol datstd solver n))
          (log (lmin_ratio_ * admm_enet_lmax std sol datstd solver n))).map exp) := by
  have : ¬ nlambda_ < 0 := by omega
  simp [admm_enet_lambda, setLinSpaced, this]

end grid

section entry
variable {α D S : Type} [Add α] [Sub α] [Mul α] [Div α] [Zero α] [NatCast α]
variable (log exp : α → α) (std : DataStdOps α D) (sol : ADMMEnetOps α S)
variable (x_ : MatrixXd α) (y_ : List α) (lambda_ : List α) (nlambda_ : Int) (lmin_ratio_ : α)
variable (standardize_ intercept_ : Bool) (alpha_ : α) (opts_ : Opts α)

theorem admm_enet_of_grid (lam : List α)
    (h : admm_enet_lambda log exp std sol (admm_enet_datstd std x_ y_ standardize_ intercept_).1
      (admm_enet_solver std sol x_ y_ standardize_ intercept_ alpha_ opts_) x_.rows
      lambda_ nlambda_ lmin_ratio_ = some lam) :
    admm_enet log exp std sol x_ y_ lambda_ nlambda_ lmin_ratio_ standardize_ intercept_
        alpha_ opts_
      = some (admm_enet_path std sol (admm_enet_datstd std x_ y_ standardize_ intercept_).1
          (admm_enet_solver std sol x_ y_ standardize_ intercept_ alpha_ opts_)
          x_.rows x_.cols opts_.rho_ratio opts_.maxit lam) := by
  simp only [admm_enet, h]

theorem admm_enet_some (r : Result α S)
    (h : admm_enet log exp std sol x_ y_ lambda_ nlambda_ lmin_ratio_ standardize_ intercept_
      alpha_ opts_ = some r) :
    ∃ lam, r = admm_enet_path std sol (admm_enet_datstd std x_ y_ standardize_ intercept_).1
          (admm_enet_solver std sol x_ y_ standardize_ intercept_ alpha_ opts_)
          x_.rows x_.cols opts_.rho_ratio opts_.maxit lam := by
  cases hl : admm_enet_lambda log exp std sol
      (admm_enet_datstd std x_ y_ standardize_ intercept_).1
      (admm_enet_solver std sol x_ y_ standardize_ intercept_ alpha_ opts_) x_.rows
      lambda_ nlambda_ lmin_ratio_ with
  | none => simp [admm_enet, hl] at h
  | some lam =>
    rw [admm_enet_of_grid log exp std sol x_ y_ lambda_ nlambda_ lmin_ratio_ standardize_
      intercept_ alpha_ opts_ lam hl] at h
    exact ⟨lam, (Option.some.inj h).symm⟩

/-- A run on the recording solver is, the record forgotten, the run on the solver. -/
theorem admm_enet_forget :
    admm_enet log exp std sol x_ y_ lambda_ nlambda_ lmin_ratio_ standardize_ intercept_
        alpha_ opts_
      = (admm_enet log exp std sol.recording x_ y_ lambda_ nlambda_ lmin_ratio_ standardize_
          intercept_ alpha_ opts_).map (Result.mapSolver Prod.fst) := by
  have hgrid : admm_enet_lambda log exp std sol.recording
      (admm_enet_datstd std x_ y_ standardize_ intercept_).1
      (admm_enet_solver std sol.recording x_ y_ standardize_ intercept_ alpha_ opts_) x_.rows
      lambda_ nlambda_ lmin_ratio_
    = admm_enet_lambda log exp std sol
      (admm_enet_datstd std x_ y_ standardize_ intercept_).1
      (admm_enet_solver std sol x_ y_ standardize_ intercept_ alpha_ opts_) x_.rows
      lambda_ nlambda_ lmin_ratio_ := rfl
  cases hl : admm_enet_lambda log exp std sol
      (admm_enet_datstd std x_ y_ standardize_ intercept_).1
      (admm_enet_solver std sol x_ y_ standardize_ intercept_ alpha_ opts_) x_.rows
      lambda_ nlambda_ lmin_ratio_ with
  | none =>
    simp only [admm_enet, hgrid, hl, Option.map_none']
  | some lam =>
    rw [admm_enet_of_grid log exp std sol x_ y_ lambda_ nlambda_ lmin_ratio_ standardize_
        intercept_ alpha_ opts_ lam hl,
      admm_enet_of_grid log exp std sol.recording x_ y_ lambda_ nlambda_ lmin_ratio_
        standardize_ intercept_ alpha_ opts_ lam (hgrid.trans hl), Option.map_some']
    exact congrArg some (path_forget std sol _ _ _ _ _ _ lam).symm

theorem toyRun_eq : toyRun = some toyResult := rfl

theorem toyRecordedRun_eq : toyRecordedRun = some toyRecordedResult := rfl

end entry

/-! ## The generated grid -/

section linspaced
variable {α : Type} [Add α] [Sub α] [Mul α] [Div α] [NatCast α]

theorem LinSpaced_length (size : Nat) (low high : α) :
    (LinSpaced size low high).length = size := by
  unfold LinSpaced
  by_cases h : size = 1
  · simp [h]
  · simp [h]

theorem LinSpaced_getElem? (size : Nat) (low high : α) (h : size ≠ 1) (k : Nat)
    (hk : k < size) :
    (LinSpaced size low high)[k]?
      = some (low + (k : α) * ((high - low) / ((size - 1 : Nat) : α))) := by
  unfold LinSpaced
  rw [if_neg h, List.getElem?_map, List.getElem?_range hk]
  rfl

end linspaced

/-! ## The claims -/

section claims
variable {α D S : Type} [Add α] [Sub α] [Mul α] [Div α] [Zero α] [NatCast α]
variable (log exp : α → α) (std : DataStdOps α D) (sol : ADMMEnetOps α S)
variable (x_ : MatrixXd α) (y_ : List α) (lambda_ : List α) (nlambda_ : Int) (lmin_ratio_ : α)
variable (standardize_ intercept_ : Bool) (alpha_ : α) (opts_ : Opts α)

/-- Every run is the image of a run on the recording solver, whose record holds, for path
point `i`, the initialisation with the penalty of `lambda[i]` at position `2 i` and the
`solve(maxit)` that returned `niter[i]` at position `2 i + 1`. -/
theorem admm_enet_recorded (r : Result α S)
    (hr : admm_enet log exp std sol x_ y_ lambda_ nlambda_ lmin_ratio_ standardize_ intercept_
      alpha_ opts_ = some r) :
    ∃ rr, admm_enet log exp std sol.recording x_ y_ lambda_ nlambda_ lmin_ratio_ standardize_
        intercept_ alpha_ opts_ = some rr ∧
      rr.mapSolver Prod.fst = r ∧
      ∀ i l, r.lambda[i]? = some l →
        ∃ k, r.niter[i]? = some k ∧
          rr.solver.2[2 * i]? = some
            (if i = 0 then
              Call.init (l * (x_.rows : α) /
                std.get_scaleY (admm_enet_datstd std x_ y_ standardize_ intercept_).1)
                opts_.rho_ratio
            else
              Call.init_warm (l * (x_.rows : α) /
                std.get_scaleY (admm_enet_datstd std x_ y_ standardize_ intercept_).1)) ∧
          rr.solver.2[2 * i + 1]? = some (Call.solve opts_.maxit k) := by
  have hplain := admm_enet_forget log exp std sol x_ y_ lambda_ nlambda_ lmin_ratio_
    standardize_ intercept_ alpha_ opts_
  rw [hr] at hplain
  obtain ⟨rr, hrr, hmap⟩ := Option.map_eq_some'.1 hplain.symm
  refine ⟨rr, hrr, hmap, ?_⟩
  obtain ⟨lam, rfl⟩ := admm_enet_some log exp std sol.recording x_ y_ lambda_ nlambda_
    lmin_ratio_ standardize_ intercept_ alpha_ opts_ rr hrr
  subst hmap
  intro i l hl
  exact path_recorded_point std sol (admm_enet_datstd std x_ y_ standardize_ intercept_).1
    (admm_enet_solver std sol x_ y_ standardize_ intercept_ alpha_ opts_)
    x_.rows x_.cols opts_.rho_ratio opts_.maxit lam i l hl

/-- Claim C2. For a grid of length at least one, the calls made on the solver, as the
solver itself records them, are exactly `init`, `solve` for the first path point followed
by `init_warm`, `solve` for each further one in order, each `solve` returning the count
stored in `niter`; `init` occurs once and `init_warm` once per further path point. The
recorded run is the run on the solver itself. -/
theorem C2_call_sequence (r : Result α (S × List (Call α)))
    (hr : admm_enet log exp std sol.recording x_ y_ lambda_ nlambda_ lmin_ratio_ standardize_
      intercept_ alpha_ opts_ = some r)
    (hL : 1 ≤ r.lambda.length) :
    admm_enet log exp std sol x_ y_ lambda_ nlambda_ lmin_ratio_ standardize_ intercept_
      alpha_ opts_ = some (r.mapSolver Prod.fst) ∧
    r.solver.2 = spec_call_sequence opts_.rho_ratio opts_.maxit
      ((r.lambda.map (fun l => l * (x_.rows : α) /
          std.get_scaleY (admm_enet_datstd std x_ y_ standardize_ intercept_).1)).zip r.niter) ∧
    r.solver.2.countP Call.isInit = 1 ∧
    r.solver.2.countP Call.isInitWarm = r.lambda.length - 1 ∧
    r.solver.2.countP Call.isSolve = r.lambda.length := by
  have hplain := admm_enet_forget log exp std sol x_ y_ lambda_ nlambda_ lmin_ratio_
    standardize_ intercept_ alpha_ opts_
  rw [hr, Option.map_some'] at hplain
  refine ⟨hplain, ?_⟩
  obtain ⟨lam, rfl⟩ := admm_enet_some log exp std sol.recording x_ y_ lambda_ nlambda_
    lmin_ratio_ standardize_ intercept_ alpha_ opts_ r hr
  have hn := path_niter_length std sol.recording
    (admm_enet_datstd std x_ y_ standardize_ intercept_).1
    (admm_enet_solver std sol.recording x_ y_ standardize_ intercept_ alpha_ opts_)
    x_.rows x_.cols opts_.rho_ratio opts_.maxit lam
  have hc := path_recorded std sol (admm_enet_datstd std x_ y_ standardize_ intercept_).1
    (admm_enet_solver std sol x_ y_ standardize_ intercept_ alpha_ opts_)
    x_.rows x_.cols opts_.rho_ratio opts_.maxit lam []
  rw [List.nil_append, loopCalls_zero] at hc
  have hc2 : (admm_enet_path std sol.recording
      (admm_enet_datstd std x_ y_ standardize_ intercept_).1
      (admm_enet_solver std sol.recording x_ y_ standardize_ intercept_ alpha_ opts_)
      x_.rows x_.cols opts_.rho_ratio opts_.maxit lam).solver.2
        = spec_call_sequence opts_.rho_ratio opts_.maxit
          ((lam.map (fun l => l * (x_.rows : α) /
            std.get_scaleY (admm_enet_datstd std x_ y_ standardize_ intercept_).1)).zip
          (admm_enet_path std sol.recording
            (admm_enet_datstd std x_ y_ standardize_ intercept_).1
            (admm_enet_solver std sol.recording x_ y_ standardize_ intercept_ alpha_ opts_)
            x_.rows x_.cols opts_.rho_ratio opts_.maxit lam).niter) := hc
  simp only [path_lambda] at hL ⊢
  refine ⟨hc2, ?_⟩
  rw [hc2]
  cases hz : (lam.map (fun l => l * (x_.rows : α) /
      std.get_scaleY (admm_enet_datstd std x_ y_ standardize_ intercept_).1)).zip
      (admm_enet_path std sol.recording (admm_enet_datstd std x_ y_ standardize_ intercept_).1
        (admm_enet_solver std sol.recording x_ y_ standardize_ intercept_ alpha_ opts_)
        x_.rows x_.cols opts_.rho_ratio opts_.maxit lam).niter with
  | nil =>
    have hlen := congrArg List.length hz
    rw [List.length_zip, List.length_map, hn, Nat.min_self, List.length_nil] at hlen
    omega
  | cons x rest =>
    have hlen := congrArg List.length hz
    rw [List.length_zip, List.length_map, hn, Nat.min_self, List.length_cons] at hlen
    obtain ⟨h1, h2, h3⟩ := warmCalls_counts opts_.maxit rest
    simp [spec_call_sequence, List.countP_cons, Call.isInit, Call.isInitWarm, Call.isSolve,
      h1, h2, h3, hlen]

/-- Claim C3. When a non-empty grid is supplied, the returned `lambda` is the supplied
sequence, whatever `nlambda_` and `lmin_ratio_` are, and the penalties the solver
receives, as the solver itself records them, follow the supplied order. -/
theorem C3_supplied_grid_verbatim (hne : lambda_ ≠ []) :
    ∃ r rr, admm_enet log exp std sol x_ y_ lambda_ nlambda_ lmin_ratio_ standardize_
        intercept_ alpha_ opts_ = some r ∧
      r.lambda = lambda_ ∧
      admm_enet log exp std sol.recording x_ y_ lambda_ nlambda_ lmin_ratio_ standardize_
        intercept_ alpha_ opts_ = some rr ∧
      rr.mapSolver Prod.fst = r ∧
      rr.solver.2.filterMap Call.penalty? = lambda_.map (fun l => l * (x_.rows : α) /
        std.get_scaleY (admm_enet_datstd std x_ y_ standardize_ intercept_).1) := by
  have hrr := admm_enet_of_grid log exp std sol.recording x_ y_ lambda_ nlambda_ lmin_ratio_
    standardize_ intercept_ alpha_ opts_ lambda_ (admm_enet_lambda_supplied log exp std
      sol.recording lambda_ nlambda_ lmin_ratio_ _ _ _ hne)
  have hplain := admm_enet_forget log exp std sol x_ y_ lambda_ nlambda_ lmin_ratio_
    standardize_ intercept_ alpha_ opts_
  rw [hrr, Option.map_some'] at hplain
  refine ⟨_, _, hplain, rfl, hrr, rfl, ?_⟩
  have hc := path_recorded std sol (admm_enet_datstd std x_ y_ standardize_ intercept_).1
    (admm_enet_solver std sol x_ y_ standardize_ intercept_ alpha_ opts_)
    x_.rows x_.cols opts_.rho_ratio opts_.maxit lambda_ []
  rw [List.nil_append] at hc
  have hn := path_niter_length std sol.recording
    (admm_enet_datstd std x_ y_ standardize_ intercept_).1
    (admm_enet_solver std sol.recording x_ y_ standardize_ intercept_ alpha_ opts_)
    x_.rows x_.cols opts_.rho_ratio opts_.maxit lambda_
  have hc2 : (admm_enet_path std sol.recording
      (admm_enet_datstd std x_ y_ standardize_ intercept_).1
      (admm_enet_solver std sol.recording x_ y_ standardize_ intercept_ alpha_ opts_)
      x_.rows x_.cols opts_.rho_ratio opts_.maxit lambda_).solver.2
        = loopCalls opts_.rho_ratio opts_.maxit 0
          ((lambda_.map (fun l => l * (x_.rows : α) /
            std.get_scaleY (admm_enet_datstd std x_ y_ standardize_ intercept_).1)).zip
          (admm_enet_path std sol.recording
            (admm_enet_datstd std x_ y_ standardize_ intercept_).1
            (admm_enet_solver std sol.recording x_ y_ standardize_ intercept_ alpha_ opts_)
            x_.rows x_.cols opts_.rho_ratio opts_.maxit lambda_).niter) := hc
  rw [hc2, loopCalls_penalties, List.map_fst_zip]
  rw [hn]
  simp

/-- Claim C7. A call that returns has a path matrix with `p + 1` rows and one column per
returned grid value, as many iteration counts as grid values, and for each index `i` the
count `niter[i]` is the value returned by `solve(maxit)` on the solver state initialised
(`init` for `i = 0`, `init_warm` otherwise) with the penalty of `lambda[i]` from the state
the previous path point left; entry `(0, i)` is the intercept recovered from the state that
same `solve` left. On the recording solver the same run records, at path point `i`, the
initialisation with that penalty followed by the `solve(maxit)` that returned `niter[i]`. -/
theorem C7_output_shape_and_alignment (r : Result α S)
    (hr : admm_enet log exp std sol x_ y_ lambda_ nlambda_ lmin_ratio_ standardize_ intercept_
      alpha_ opts_ = some r) :
    r.beta.rows = x_.cols + 1 ∧
    r.beta.cols = r.lambda.length ∧
    r.niter.length = r.lambda.length ∧
    (∀ i l, r.lambda[i]? = some l →
      ∃ o, (spec_path_outcomes std sol x_ y_ standardize_ intercept_ alpha_ opts_
          r.lambda)[i]? = some o ∧
        o = sol.solve (spec_start sol opts_.rho_ratio i
          (l * (x_.rows : α) /
            std.get_scaleY (admm_enet_datstd std x_ y_ standardize_ intercept_).1)
          (spec_state_before
            (spec_path_outcomes std sol x_ y_ standardize_ intercept_ alpha_ opts_ r.lambda)
            (admm_enet_solver std sol x_ y_ standardize_ intercept_ alpha_ opts_) i))
          opts_.maxit ∧
        r.niter[i]? = some o.2 ∧
        r.beta.coeff 0 i
          = (std.recover (admm_enet_datstd std x_ y_ standardize_ intercept_).1 0
              (sol.get_x o.1)).1) ∧
    (∃ rr, admm_enet log exp std sol.recording x_ y_ lambda_ nlambda_ lmin_ratio_
        standardize_ intercept_ alpha_ opts_ = some rr ∧
      rr.mapSolver Prod.fst = r ∧
      ∀ i l, r.lambda[i]? = some l →
        ∃ k, r.niter[i]? = some k ∧
          rr.solver.2[2 * i]? = some
            (if i = 0 then
              Call.init (l * (x_.rows : α) /
                std.get_scaleY (admm_enet_datstd std x_ y_ standardize_ intercept_).1)
                opts_.rho_ratio
            else
              Call.init_warm (l * (x_.rows : α) /
                std.get_scaleY (admm_enet_datstd std x_ y_ standardize_ intercept_).1)) ∧
          rr.solver.2[2 * i + 1]? = some (Call.solve opts_.maxit k)) := by
  have hrec := admm_enet_recorded log exp std sol x_ y_ lambda_ nlambda_ lmin_ratio_
    standardize_ intercept_ alpha_ opts_ r hr
  obtain ⟨lam, rfl⟩ := admm_enet_some log exp std sol x_ y_ lambda_ nlambda_ lmin_ratio_
    standardize_ intercept_ alpha_ opts_ r hr
  refine ⟨(path_beta_shape _ _ _ _ _ _ _ _ _).1, (path_beta_shape _ _ _ _ _ _ _ _ _).2,
    path_niter_length _ _ _ _ _ _ _ _ _, ?_, hrec⟩
  intro i l hl
  rw [path_lambda] at hl ⊢
  have ho := path_outcome_exists std sol (admm_enet_datstd std x_ y_ standardize_
    intercept_).1 (admm_enet_solver std sol x_ y_ standardize_ intercept_ alpha_ opts_)
    x_.rows opts_.rho_ratio opts_.maxit lam i l hl
  have hp := path_outcomes std sol _ _ _ x_.cols _ _ lam i _ ho
  exact ⟨_, ho, rfl, hp.1, hp.2.1.1⟩

/-- Claim C8. Whatever counts `solve` returns (the cap `maxit` or less), the call returns a
result over the whole grid; at every path point the count `solve` returned is stored in
`niter`, the iterate recovered from the state that `solve` left is written to the point's
column, and every later path point runs `solve` on the `init_warm` of the state the
previous point left (on the recording solver: `init` is recorded for the first point only,
`init_warm` for every later one, each followed by the `solve` that returned `niter[i]`);
replacing the counts `solve` returns by any others changes `niter` only. -/
theorem C8_iteration_cap_is_no_error (hgrid : lambda_ ≠ [] ∨ 0 ≤ nlambda_) :
    ∃ r, admm_enet log exp std sol x_ y_ lambda_ nlambda_ lmin_ratio_ standardize_ intercept_
        alpha_ opts_ = some r ∧
      (lambda_ ≠ [] → r.lambda = lambda_) ∧
      (lambda_ = [] → r.lambda.length = nlambda_.toNat) ∧
      (∀ i l, r.lambda[i]? = some l →
        ∃ o, (spec_path_outcomes std sol x_ y_ standardize_ intercept_ alpha_ opts_
            r.lambda)[i]? = some o ∧
          o = sol.solve (spec_start sol opts_.rho_ratio i
            (l * (x_.rows : α) /
              std.get_scaleY (admm_enet_datstd std x_ y_ standardize_ intercept_).1)
            (spec_state_before
              (spec_path_outcomes std sol x_ y_ standardize_ intercept_ alpha_ opts_ r.lambda)
              (admm_enet_solver std sol x_ y_ standardize_ intercept_ alpha_ opts_) i))
            opts_.maxit ∧
          r.niter[i]? = some o.2 ∧
          r.beta.coeff 0 i
            = (std.recover (admm_enet_datstd std x_ y_ standardize_ intercept_).1 0
                (sol.get_x o.1)).1 ∧
          (∀ e ∈ (std.recover (admm_enet_datstd std x_ y_ standardize_ intercept_).1 0
              (sol.get_x o.1)).2.entries,
            (e.1 + 1, i, e.2) ∈ r.beta.entries ∧ r.beta.coeff (e.1 + 1) i = e.2) ∧
          (∀ l2, r.lambda[i + 1]? = some l2 →
            (spec_path_outcomes std sol x_ y_ standardize_ intercept_ alpha_ opts_
                r.lambda)[i + 1]?
              = some (sol.solve (sol.init_warm o.1 (l2 * (x_.rows : α) /
                  std.get_scaleY (admm_enet_datstd std x_ y_ standardize_ intercept_).1))
                opts_.maxit))) ∧
      (∃ rr, admm_enet log exp std sol.recording x_ y_ lambda_ nlambda_ lmin_ratio_
        standardize_ intercept_ alpha_ opts_ = some rr ∧
      rr.mapSolver Prod.fst = r ∧
      ∀ i l, r.lambda[i]? = some l →
        ∃ k, r.niter[i]? = some k ∧
          rr.solver.2[2 * i]? = some
            (if i = 0 then
              Call.init (l * (x_.rows : α) /
                std.get_scaleY (admm_enet_datstd std x_ y_ standardize_ intercept_).1)
                opts_.rho_ratio
            else
              Call.init_warm (l * (x_.rows : α) /
                std.get_scaleY (admm_enet_datstd std x_ y_ standardize_ intercept_).1)) ∧
          rr.solver.2[2 * i + 1]? = some (Call.solve opts_.maxit k)) ∧
      (∀ f : Int → Int,
        admm_enet log exp std (sol.mapCount f) x_ y_ lambda_ nlambda_ lmin_ratio_ standardize_
            intercept_ alpha_ opts_
          = some { r with niter := r.niter.map f }) := by
  have hgr : ∃ lam, admm_enet_lambda log exp std sol
      (admm_enet_datstd std x_ y_ standardize_ intercept_).1
      (admm_enet_solver std sol x_ y_ standardize_ intercept_ alpha_ opts_) x_.rows
      lambda_ nlambda_ lmin_ratio_ = some lam ∧ (lambda_ ≠ [] → lam = lambda_) ∧
      (lambda_ = [] → lam.length = nlambda_.toNat) := by
    by_cases hne : lambda_ = []
    · subst hne
      rcases hgrid with h | h
      · exact absurd rfl h
      · exact ⟨_, admm_enet_lambda_generated log exp std sol nlambda_ lmin_ratio_ _ _ _ h,
          fun h2 => absurd rfl h2, fun _ => by simp [LinSpaced_length]⟩
    · exact ⟨_, admm_enet_lambda_supplied log exp std sol lambda_ nlambda_ lmin_ratio_ _ _ _
        hne, fun _ => rfl, fun h2 => absurd h2 hne⟩
  obtain ⟨lam, hlam, hsup, hgen⟩ := hgr
  have hr := admm_enet_of_grid log exp std sol x_ y_ lambda_ nlambda_ lmin_ratio_ standardize_
    intercept_ alpha_ opts_ lam hlam
  refine ⟨_, hr, hsup, hgen, ?_, admm_enet_recorded log exp std sol x_ y_ lambda_ nlambda_
    lmin_ratio_ standardize_ intercept_ alpha_ opts_ _ hr, ?_⟩
  · intro i l hl
    rw [path_lambda] at hl ⊢
    have ho := path_outcome_exists std sol (admm_enet_datstd std x_ y_ standardize_
      intercept_).1 (admm_enet_solver std sol x_ y_ standardize_ intercept_ alpha_ opts_)
      x_.rows opts_.rho_ratio opts_.maxit lam i l hl
    have hp := path_outcomes std sol _ _ _ x_.cols _ _ lam i _ ho
    refine ⟨_, ho, rfl, hp.1, hp.2.1.1, ?_, ?_⟩
    · intro e he
      exact ⟨hp.2.2 e he, hp.2.1.2.1 e he⟩
    · intro l2 hl2
      exact spec_outcomes_succ sol opts_.rho_ratio opts_.maxit 0 _ _ i _ _ ho
        (by rw [List.getElem?_map, hl2]; rfl)
  · intro f
    have hlam2 : admm_enet_lambda log exp std (sol.mapCount f)
        (admm_enet_datstd std x_ y_ standardize_ intercept_).1
        (admm_enet_solver std (sol.mapCount f) x_ y_ standardize_ intercept_ alpha_ opts_)
        x_.rows lambda_ nlambda_ lmin_ratio_ = some lam := hlam
    rw [admm_enet_of_grid log exp std (sol.mapCount f) x_ y_ lambda_ nlambda_ lmin_ratio_
      standardize_ intercept_ alpha_ opts_ lam hlam2]
    exact congrArg some (path_mapCount std sol _ _ _ _ _ _ lam f)

/-- Claim C6, as the code has it. `admm_enet` checks none of its arguments. With a non-empty
supplied grid of length `L`, for every `alpha_`, `opts_` (iteration cap and tolerances
included), `nlambda_` and `lmin_ratio_`, it returns a path with `L` columns, and the solver
records a first call `init` with the penalty of the first grid value, one `solve(maxit)`
per path point, `2 L` calls in all. With no supplied grid and `nlambda_ = 0` it returns the
empty path and the solver, left as constructed, records no `init`, `init_warm` or `solve`;
with `nlambda_ = m ≥ 0` and any `lmin_ratio_` it returns `m` path points after `2 m`
recorded calls. In each case the recorded run is the run on the solver itself. -/
theorem C6_no_argument_check :
    admm_enet log exp std sol x_ y_ lambda_ nlambda_ lmin_ratio_ standardize_ intercept_
        alpha_ opts_
      = (admm_enet log exp std sol.recording x_ y_ lambda_ nlambda_ lmin_ratio_ standardize_
          intercept_ alpha_ opts_).map (Result.mapSolver Prod.fst) ∧
    (∀ l0 rest, lambda_ = l0 :: rest →
      ∃ r, admm_enet log exp std sol.recording x_ y_ lambda_ nlambda_ lmin_ratio_
          standardize_ intercept_ alpha_ opts_ = some r ∧
        r.lambda = lambda_ ∧
        r.beta.cols = lambda_.length ∧
        r.niter.length = lambda_.length ∧
        r.solver.2.length = 2 * lambda_.length ∧
        r.solver.2[0]? = some (Call.init (l0 * (x_.rows : α) /
          std.get_scaleY (admm_enet_datstd std x_ y_ standardize_ intercept_).1)
          opts_.rho_ratio) ∧
        ∀ i, i < lambda_.length →
          ∃ k, r.niter[i]? = some k ∧ r.solver.2[2 * i + 1]? = some (Call.solve opts_.maxit k)) ∧
    admm_enet log exp std sol.recording x_ y_ [] 0 lmin_ratio_ standardize_ intercept_ alpha_
        opts_
      = some { lambda := [], beta := SpMat.create (x_.cols + 1) 0, niter := [],
               solver := (admm_enet_solver std sol x_ y_ standardize_ intercept_ alpha_ opts_,
                 []) } ∧
    (∀ m : Nat,
      ∃ r, admm_enet log exp std sol.recording x_ y_ [] (m : Int) lmin_ratio_ standardize_
          intercept_ alpha_ opts_ = some r ∧
        r.lambda.length = m ∧ r.beta.cols = m ∧ r.solver.2.length = 2 * m) := by
  refine ⟨admm_enet_forget log exp std sol x_ y_ lambda_ nlambda_ lmin_ratio_ standardize_
    intercept_ alpha_ opts_, ?_, ?_, ?_⟩
  · intro l0 rest hne
    have hne2 : lambda_ ≠ [] := by rw [hne]; exact List.cons_ne_nil _ _
    refine ⟨_, admm_enet_of_grid log exp std sol.recording x_ y_ lambda_ nlambda_ lmin_ratio_
      standardize_ intercept_ alpha_ opts_ lambda_ (admm_enet_lambda_supplied log exp std
        sol.recording lambda_ nlambda_ lmin_ratio_ _ _ _ hne2), rfl,
      (path_beta_shape _ _ _ _ _ _ _ _ _).2, path_niter_length _ _ _ _ _ _ _ _ _,
      path_recorded_length std sol _ _ _ _ _ _ _, ?_, ?_⟩
    · obtain ⟨_, _, h2, _⟩ :=
        path_recorded_point std sol (admm_enet_datstd std x_ y_ standardize_ intercept_).1
          (admm_enet_solver std sol x_ y_ standardize_ intercept_ alpha_ opts_)
          x_.rows x_.cols opts_.rho_ratio opts_.maxit lambda_ 0 l0 (by rw [hne]; simp)
      exact h2
    · intro i hi
      obtain ⟨k, h1, _, h3⟩ :=
        path_recorded_point std sol (admm_enet_datstd std x_ y_ standardize_ intercept_).1
          (admm_enet_solver std sol x_ y_ standardize_ intercept_ alpha_ opts_)
          x_.rows x_.cols opts_.rho_ratio opts_.maxit lambda_ i _ (List.getElem?_eq_getElem hi)
      exact ⟨k, h1, h3⟩
  · rw [admm_enet_of_grid log exp std sol.recording x_ y_ [] 0 lmin_ratio_ standardize_
      intercept_ alpha_ opts_ _ (admm_enet_lambda_generated log exp std sol.recording 0
        lmin_ratio_ _ _ _ (le_refl _))]
    rfl
  · intro m
    have h := admm_enet_lambda_generated log exp std sol.recording (m : Int) lmin_ratio_
      (admm_enet_datstd std x_ y_ standardize_ intercept_).1
      (admm_enet_solver std sol.recording x_ y_ standardize_ intercept_ alpha_ opts_) x_.rows
      (Int.natCast_nonneg _)
    rw [Int.toNat_natCast] at h
    refine ⟨_, admm_enet_of_grid log exp std sol.recording x_ y_ [] (m : Int) lmin_ratio_
      standardize_ intercept_ alpha_ opts_ _ h, ?_, ?_, ?_⟩
    · simp [path_lambda, LinSpaced_length]
    · rw [(path_beta_shape _ _ _ _ _ _ _ _ _).2]
      simp [LinSpaced_length]
    · have := path_recorded_length std sol
        (admm_enet_datstd std x_ y_ standardize_ intercept_).1
        (admm_enet_solver std sol x_ y_ standardize_ intercept_ alpha_ opts_)
        x_.rows x_.cols opts_.rho_ratio opts_.maxit
        ((LinSpaced m (log (admm_enet_lmax std sol.recording
            (admm_enet_datstd std x_ y_ standardize_ intercept_).1
            (admm_enet_solver std sol.recording x_ y_ standardize_ intercept_ alpha_ opts_)
            x_.rows))
          (log (lmin_ratio_ * admm_enet_lmax std sol.recording
            (admm_enet_datstd std x_ y_ standardize_ intercept_).1
            (admm_enet_solver std sol.recording x_ y_ standardize_ intercept_ alpha_ opts_)
            x_.rows))).map exp)
      rw [List.length_map, LinSpaced_length] at this
      exact this

end claims

section penalty
variable {α D S : Type} [Add α] [Sub α] [Mul α] [Div α] [Zero α] [One α] [NatCast α]
variable (log exp : α → α) (std : DataStdOps α D) (sol : ADMMEnetOps α S)
variable (x_ : MatrixXd α) (y_ : List α) (lambda_ : List α) (nlambda_ : Int) (lmin_ratio_ : α)
variable (standardize_ intercept_ : Bool) (alpha_ : α) (opts_ : Opts α)

/-- Claim C9. At every path point `i` the penalty the solver receives, as the solver
itself records it (in `init` with `rho_ratio` for `i = 0`, in `init_warm` otherwise), is
`lambda[i] * n / scaleY` in the arithmetic of the scalar type; when `scaleY = 1`, and
division by one and commutation of products are exact as they are for doubles and for
reals, it is `n * lambda[i]`. The recorded run is the run on the solver itself. -/
theorem C9_solver_penalty (r : Result α (S × List (Call α)))
    (hr : admm_enet log exp std sol.recording x_ y_ lambda_ nlambda_ lmin_ratio_ standardize_
      intercept_ alpha_ opts_ = some r) :
    admm_enet log exp std sol x_ y_ lambda_ nlambda_ lmin_ratio_ standardize_ intercept_
      alpha_ opts_ = some (r.mapSolver Prod.fst) ∧
    ∀ i l, r.lambda[i]? = some l →
      r.solver.2[2 * i]? = some
        (if i = 0 then
          Call.init (l * (x_.rows : α) /
            std.get_scaleY (admm_enet_datstd std x_ y_ standardize_ intercept_).1)
            opts_.rho_ratio
        else
          Call.init_warm (l * (x_.rows : α) /
            std.get_scaleY (admm_enet_datstd std x_ y_ standardize_ intercept_).1)) ∧
      (std.get_scaleY (admm_enet_datstd std x_ y_ standardize_ intercept_).1 = 1 →
        (∀ a : α, a / 1 = a) → (∀ a b : α, a * b = b * a) →
        (r.solver.2[2 * i]?).bind Call.penalty? = some ((x_.rows : α) * l)) := by
  have hplain := admm_enet_forget log exp std sol x_ y_ lambda_ nlambda_ lmin_ratio_
    standardize_ intercept_ alpha_ opts_
  rw [hr, Option.map_some'] at hplain
  refine ⟨hplain, ?_⟩
  obtain ⟨lam, rfl⟩ := admm_enet_some log exp std sol.recording x_ y_ lambda_ nlambda_
    lmin_ratio_ standardize_ intercept_ alpha_ opts_ r hr
  intro i l hl
  rw [path_lambda] at hl
  obtain ⟨_, _, h2, _⟩ :=
    path_recorded_point std sol (admm_enet_datstd std x_ y_ standardize_ intercept_).1
      (admm_enet_solver std sol x_ y_ standardize_ intercept_ alpha_ opts_)
      x_.rows x_.cols opts_.rho_ratio opts_.maxit lam i l hl
  have h2b : (admm_enet_path std sol.recording
      (admm_enet_datstd std x_ y_ standardize_ intercept_).1
      (admm_enet_solver std sol.recording x_ y_ standardize_ intercept_ alpha_ opts_)
      x_.rows x_.cols opts_.rho_ratio opts_.maxit lam).solver.2[2 * i]?
        = some (if i = 0 then Call.init (l * (x_.rows : α) /
            std.get_scaleY (admm_enet_datstd std x_ y_ standardize_ intercept_).1)
            opts_.rho_ratio
          else Call.init_warm (l * (x_.rows : α) /
            std.get_scaleY (admm_enet_datstd std x_ y_ standardize_ intercept_).1)) := h2
  refine ⟨h2b, ?_⟩
  intro hs hdiv hcomm
  rw [h2b, hs]
  by_cases h0 : i = 0 <;> simp [h0, Call.penalty?, hdiv, hcomm l]

end penalty

section real
variable {D S : Type} (std : DataStdOps ℝ D) (sol : ADMMEnetOps ℝ S)
variable (x_ : MatrixXd ℝ) (y_ : List ℝ) (n_lambda : Nat) (lmin_ratio : ℝ)
variable (standardize_ intercept_ : Bool) (alpha_ : ℝ) (opts_ : Opts ℝ)

/-- The grid built at Enet.cpp 94–95 from `lmax` and `lmin_ratio`, over the reals. -/
theorem generated_grid_eq (lmax : ℝ)
    (hlmax : lmax = sol.get_lambda_zero
        (admm_enet_solver std sol x_ y_ standardize_ intercept_ alpha_ opts_) / (x_.rows : ℝ) *
      std.get_scaleY (admm_enet_datstd std x_ y_ standardize_ intercept_).1) :
    admm_enet Real.log Real.exp std sol x_ y_ [] (n_lambda : Int) lmin_ratio standardize_
        intercept_ alpha_ opts_
      = some (admm_enet_path std sol (admm_enet_datstd std x_ y_ standardize_ intercept_).1
          (admm_enet_solver std sol x_ y_ standardize_ intercept_ alpha_ opts_)
          x_.rows x_.cols opts_.rho_ratio opts_.maxit
          ((LinSpaced n_lambda (Real.log lmax) (Real.log (lmin_ratio * lmax))).map Real.exp)) := by
  have h := admm_enet_lambda_generated Real.log Real.exp std sol (n_lambda : Int) lmin_ratio
    (admm_enet_datstd std x_ y_ standardize_ intercept_).1
    (admm_enet_solver std sol x_ y_ standardize_ intercept_ alpha_ opts_) x_.rows
    (Int.natCast_nonneg _)
  rw [Int.toNat_natCast] at h
  rw [admm_enet_of_grid Real.log Real.exp std sol x_ y_ [] (n_lambda : Int) lmin_ratio
    standardize_ intercept_ alpha_ opts_ _ h, hlmax]
  rfl

theorem grid_value (lmax : ℝ) (hn : 2 ≤ n_lambda) (k : Nat) (hk : k < n_lambda) :
    ((LinSpaced n_lambda (Real.log lmax) (Real.log (lmin_ratio * lmax))).map Real.exp)[k]?
      = some (Real.exp (Real.log lmax +
          (k : ℝ) * (Real.log (lmin_ratio * lmax) - Real.log lmax) / ((n_lambda : ℝ) - 1))) := by
  rw [List.getElem?_map, LinSpaced_getElem? _ _ _ (by omega) k hk]
  simp only [Option.map_some']
  rw [Nat.cast_sub (by omega), Nat.cast_one, mul_div_assoc]

theorem grid_value_pow (lmax : ℝ) (hpos : 0 < lmax) (h0 : 0 < lmin_ratio) (k : Nat) :
    Real.exp (Real.log lmax +
        (k : ℝ) * (Real.log (lmin_ratio * lmax) - Real.log lmax) / ((n_lambda : ℝ) - 1))
      = lmax * lmin_ratio ^ ((k : ℝ) / ((n_lambda : ℝ) - 1)) := by
  rw [Real.log_mul h0.ne' hpos.ne', Real.exp_add, Real.exp_log hpos,
    Real.rpow_def_of_pos h0]
  congr 2
  ring

/-- Claim C4. With no supplied grid, `n_lambda ≥ 2`, `lmin_ratio > 0` and `λ_max > 0`, where
`λ_max = get_lambda_zero() / n * scaleY`, the generated grid has `n_lambda` values, the
`k`-th being `exp(log λ_max + k (log(lmin_ratio λ_max) − log λ_max) / (n_lambda − 1))`
`= λ_max · lmin_ratio ^ (k / (n_lambda − 1))`; the first is `λ_max`, the last is
`lmin_ratio · λ_max`, and consecutive values have the constant ratio
`lmin_ratio ^ (1 / (n_lambda − 1))`. -/
theorem C4_generated_grid_values (lmax : ℝ)
    (hlmax : lmax = sol.get_lambda_zero
        (admm_enet_solver std sol x_ y_ standardize_ intercept_ alpha_ opts_) / (x_.rows : ℝ) *
      std.get_scaleY (admm_enet_datstd std x_ y_ standardize_ intercept_).1)
    (hn : 2 ≤ n_lambda) (h0 : 0 < lmin_ratio) (h1 : lmin_ratio < 1) (hpos : 0 < lmax) :
    ∃ r, admm_enet Real.log Real.exp std sol x_ y_ [] (n_lambda : Int) lmin_ratio standardize_
        intercept_ alpha_ opts_ = some r ∧
      r.lambda.length = n_lambda ∧
      (∀ k, k < n_lambda →
        r.lambda[k]? = some (Real.exp (Real.log lmax +
          (k : ℝ) * (Real.log (lmin_ratio * lmax) - Real.log lmax) / ((n_lambda : ℝ) - 1))) ∧
        r.lambda[k]? = some (lmax * lmin_ratio ^ ((k : ℝ) / ((n_lambda : ℝ) - 1)))) ∧
      r.lambda[0]? = some lmax ∧
      r.lambda[n_lambda - 1]? = some (lmin_ratio * lmax) ∧
      (∀ k, k + 1 < n_lambda → ∃ a b, r.lambda[k]? = some a ∧ r.lambda[k + 1]? = some b ∧
        b = a * lmin_ratio ^ ((1 : ℝ) / ((n_lambda : ℝ) - 1)) ∧ b < a) := by
  have hn1 : (0 : ℝ) < (n_lambda : ℝ) - 1 := by
    have : (2 : ℝ) ≤ (n_lambda : ℝ) := by exact_mod_cast hn
    linarith
  have hval : ∀ k, k < n_lambda →
      ((LinSpaced n_lambda (Real.log lmax) (Real.log (lmin_ratio * lmax))).map Real.exp)[k]?
        = some (lmax * lmin_ratio ^ ((k : ℝ) / ((n_lambda : ℝ) - 1))) := by
    intro k hk
    rw [grid_value n_lambda lmin_ratio lmax hn k hk,
      grid_value_pow n_lambda lmin_ratio lmax hpos h0 k]
  refine ⟨_, generated_grid_eq std sol x_ y_ n_lambda lmin_ratio standardize_ intercept_ alpha_
    opts_ lmax hlmax, ?_, ?_, ?_, ?_, ?_⟩
  · simp [path_lambda, LinSpaced_length]
  · intro k hk
    exact ⟨grid_value n_lambda lmin_ratio lmax hn k hk, hval k hk⟩
  · rw [path_lambda, hval 0 (by omega)]
    simp
  · rw [path_lambda, hval (n_lambda - 1) (by omega), Nat.cast_sub (by omega), Nat.cast_one,
      div_self hn1.ne', Real.rpow_one, mul_comm]
  · intro k hk
    refine ⟨_, _, hval k (by omega), hval (k + 1) hk, ?_, ?_⟩
    · rw [mul_assoc, ← Real.rpow_add h0]
      congr 2
      push_cast
      ring
    · have hlt : lmin_ratio ^ (((k + 1 : Nat) : ℝ) / ((n_lambda : ℝ) - 1))
          < lmin_ratio ^ ((k : ℝ) / ((n_lambda : ℝ) - 1)) := by
        apply Real.rpow_lt_rpow_of_exponent_gt h0 h1
        apply div_lt_div_of_pos_right _ hn1
        push_cast
        linarith
      exact mul_lt_mul_of_pos_left hlt hpos

/-- Claim C5. With no supplied grid, `n_lambda ≥ 1`, `lmin_ratio ∈ (0, 1)` and `λ_max > 0`,
the generated grid is strictly decreasing and all its values are strictly positive. -/
theorem C5_generated_grid_decreasing_positive (lmax : ℝ)
    (hlmax : lmax = sol.get_lambda_zero
        (admm_enet_solver std sol x_ y_ standardize_ intercept_ alpha_ opts_) / (x_.rows : ℝ) *
      std.get_scaleY (admm_enet_datstd std x_ y_ standardize_ intercept_).1)
    (hn : 1 ≤ n_lambda) (h0 : 0 < lmin_ratio) (h1 : lmin_ratio < 1) (hpos : 0 < lmax) :
    ∃ r, admm_enet Real.log Real.exp std sol x_ y_ [] (n_lambda : Int) lmin_ratio standardize_
        intercept_ alpha_ opts_ = some r ∧
      r.lambda.length = n_lambda ∧
      r.lambda.Pairwise (fun a b => b < a) ∧
      ∀ v ∈ r.lambda, 0 < v := by
  refine ⟨_, generated_grid_eq std sol x_ y_ n_lambda lmin_ratio standardize_ intercept_ alpha_
    opts_ lmax hlmax, ?_, ?_, ?_⟩
  · simp [path_lambda, LinSpaced_length]
  · rw [path_lambda]
    by_cases hone : n_lambda = 1
    · simp [LinSpaced, hone]
    · have hn1 : (0 : ℝ) < ((n_lambda - 1 : Nat) : ℝ) := by
        have : 0 < n_lambda - 1 := by omega
        exact_mod_cast this
      have hlog : Real.log (lmin_ratio * lmax) < Real.log lmax := by
        apply Real.log_lt_log (mul_pos h0 hpos)
        nlinarith
      have hstep : (Real.log (lmin_ratio * lmax) - Real.log lmax) / ((n_lambda - 1 : Nat) : ℝ)
          < 0 := div_neg_of_neg_of_pos (by linarith) hn1
      simp only [LinSpaced, if_neg hone, List.map_map]
      rw [List.pairwise_map]
      refine List.Pairwise.imp ?_ (List.pairwise_lt_range n_lambda)
      intro a b hab
      simp only [Function.comp]
      apply Real.exp_lt_exp.2
      have : (a : ℝ) < (b : ℝ) := by exact_mod_cast hab
      nlinarith
  · intro v hv
    rw [path_lambda] at hv
    obtain ⟨w, _, rfl⟩ := List.mem_map.1 hv
    exact Real.exp_pos w

/-- Claim C10. With no supplied grid, `n_lambda ≥ 2`, `n > 0`, `scaleY > 0` and
`get_lambda_zero() > 0`, the first call the solver records is `init`, and the penalty it
receives is `get_lambda_zero()` itself: the first grid value is `lmax`, and
`lmax * n / scaleY` cancels to `get_lambda_zero()`. The recorded run is the run on the
solver itself. -/
theorem C10_first_penalty_is_lambda_zero
    (hn : 2 ≤ n_lambda) (hrows : 0 < x_.rows)
    (hscale : 0 < std.get_scaleY (admm_enet_datstd std x_ y_ standardize_ intercept_).1)
    (hzero : 0 < sol.get_lambda_zero
      (admm_enet_solver std sol x_ y_ standardize_ intercept_ alpha_ opts_)) :
    ∃ r, admm_enet Real.log Real.exp std sol.recording x_ y_ [] (n_lambda : Int) lmin_ratio
        standardize_ intercept_ alpha_ opts_ = some r ∧
      admm_enet Real.log Real.exp std sol x_ y_ [] (n_lambda : Int) lmin_ratio
        standardize_ intercept_ alpha_ opts_ = some (r.mapSolver Prod.fst) ∧
      r.lambda[0]? = some (admm_enet_lmax std sol
        (admm_enet_datstd std x_ y_ standardize_ intercept_).1
        (admm_enet_solver std sol x_ y_ standardize_ intercept_ alpha_ opts_) x_.rows) ∧
      r.solver.2[0]? = some (Call.init
        (sol.get_lambda_zero
          (admm_enet_solver std sol x_ y_ standardize_ intercept_ alpha_ opts_))
        opts_.rho_ratio) ∧
      admm_enet_lmax std sol (admm_enet_datstd std x_ y_ standardize_ intercept_).1
          (admm_enet_solver std sol x_ y_ standardize_ intercept_ alpha_ opts_) x_.rows
          * (x_.rows : ℝ) / std.get_scaleY (admm_enet_datstd std x_ y_ standardize_ intercept_).1
        = sol.get_lambda_zero
          (admm_enet_solver std sol x_ y_ standardize_ intercept_ alpha_ opts_) := by
  have hrowsR : (0 : ℝ) < (x_.rows : ℝ) := by exact_mod_cast hrows
  have hcancel : admm_enet_lmax std sol (admm_enet_datstd std x_ y_ standardize_ intercept_).1
        (admm_enet_solver std sol x_ y_ standardize_ intercept_ alpha_ opts_) x_.rows
        * (x_.rows : ℝ) / std.get_scaleY (admm_enet_datstd std x_ y_ standardize_ intercept_).1
      = sol.get_lambda_zero
        (admm_enet_solver std sol x_ y_ standardize_ intercept_ alpha_ opts_) := by
    unfold admm_enet_lmax
    field_simp
  have hpos : 0 < admm_enet_lmax std sol (admm_enet_datstd std x_ y_ standardize_ intercept_).1
      (admm_enet_solver std sol x_ y_ standardize_ intercept_ alpha_ opts_) x_.rows :=
    mul_pos (div_pos hzero hrowsR) hscale
  have hrun := generated_grid_eq std sol.recording x_ y_ n_lambda lmin_ratio standardize_
    intercept_ alpha_ opts_ _ rfl
  have hplain := admm_enet_forget Real.log Real.exp std sol x_ y_ [] (n_lambda : Int)
    lmin_ratio standardize_ intercept_ alpha_ opts_
  rw [hrun, Option.map_some'] at hplain
  have hfirst : ((LinSpaced n_lambda (Real.log (admm_enet_lmax std sol
          (admm_enet_datstd std x_ y_ standardize_ intercept_).1
          (admm_enet_solver std sol x_ y_ standardize_ intercept_ alpha_ opts_) x_.rows))
        (Real.log (lmin_ratio * admm_enet_lmax std sol
          (admm_enet_datstd std x_ y_ standardize_ intercept_).1
          (admm_enet_solver std sol x_ y_ standardize_ intercept_ alpha_ opts_)
          x_.rows))).map Real.exp)[0]?
      = some (admm_enet_lmax std sol (admm_enet_datstd std x_ y_ standardize_ intercept_).1
          (admm_enet_solver std sol x_ y_ standardize_ intercept_ alpha_ opts_) x_.rows) := by
    rw [grid_value n_lambda lmin_ratio _ hn 0 (by omega)]
    simp [Real.exp_log hpos]
  refine ⟨_, hrun, hplain, hfirst, ?_, hcancel⟩
  obtain ⟨_, _, h2, _⟩ :=
    path_recorded_point std sol (admm_enet_datstd std x_ y_ standardize_ intercept_).1
      (admm_enet_solver std sol x_ y_ standardize_ intercept_ alpha_ opts_)
      x_.rows x_.cols opts_.rho_ratio opts_.maxit _ 0 _ hfirst
  have h3b : (2 * 0 : Nat) = 0 := rfl
  rw [h3b, if_pos rfl, hcancel] at h2
  exact h2

end real

/-! ## Evaluation on the small instance -/

/-- Claim C6 fails as stated: with `maxit = 0`, all other arguments within range, and the
supplied grid `5`, the call returns a path, and the solver records the calls
`init(10, 1)` and `solve(0)` made on it. -/
theorem C6_counterexample :
    zeroCapOpts.maxit ≤ 0 ∧
    ∃ r, admm_enet id id (toyStd ℚ) (toySol ℚ).recording (toyX ℚ) [0, 0] [5] 10 (1 / 2) true
        true 1 zeroCapOpts = some r ∧
      admm_enet id id (toyStd ℚ) (toySol ℚ) (toyX ℚ) [0, 0] [5] 10 (1 / 2) true true 1
        zeroCapOpts = some (r.mapSolver Prod.fst) ∧
      r.lambda = [5] ∧ r.niter = [0] ∧ r.beta.cols = 1 ∧
      r.solver.2 = [Call.init 10 1, Call.solve 0 0] := by
  refine ⟨by decide, _, rfl, rfl, rfl, rfl, rfl, ?_⟩
  simp [admm_enet_path, path_loop, path_step, toyStd, toySol, toyX, zeroCapOpts,
    admm_enet_datstd, admm_enet_solver, ADMMEnetOps.recording]
  norm_num

/-- Instance of the amended claim C6 with `alpha_ = 2`, a negative iteration cap and
non-positive tolerances. -/
theorem C6_no_argument_check_witness :
    ([5] : List ℚ) = 5 :: [] ∧
    ∃ r, admm_enet id id (toyStd ℚ) (toySol ℚ).recording (toyX ℚ) [0, 0] [5] 0 7 true true 2
        { maxit := -1, eps_abs := 0, eps_rel := -1, rho_ratio := 1 } = some r ∧
      r.lambda = [5] ∧ r.solver.2.length = 2 * 1 ∧
      r.solver.2[0]? = some (Call.init (5 * ((toyX ℚ).rows : ℚ) / (toyStd ℚ).get_scaleY ()) 1) :=
  ⟨rfl, by
    obtain ⟨r, h1, h2, _, _, h5, h6, _⟩ :=
      (C6_no_argument_check id id (toyStd ℚ) (toySol ℚ) (toyX ℚ) [0, 0] [5] 0 7 true true 2
        { maxit := -1, eps_abs := 0, eps_rel := -1, rho_ratio := 1 }).2.1 5 [] rfl
    exact ⟨r, h1, h2, h5, h6⟩⟩

/-- Instance of claim C2 on the small run. -/
theorem C2_call_sequence_witness :
    toyRecordedRun = some toyRecordedResult ∧
    1 ≤ toyRecordedResult.lambda.length ∧
    toyRun = some (toyRecordedResult.mapSolver Prod.fst) ∧
    toyRecordedResult.solver.2.countP Call.isInit = 1 ∧
    toyRecordedResult.solver.2.countP Call.isInitWarm = toyRecordedResult.lambda.length - 1 ∧
    toyRecordedResult.solver.2.countP Call.isSolve = toyRecordedResult.lambda.length :=
  ⟨toyRecordedRun_eq, by decide,
    (C2_call_sequence id id (toyStd ℚ) (toySol ℚ) (toyX ℚ) [0, 0] [3, 2, 1] 5 (1 / 2)
      true true 1 (toyOpts ℚ) toyRecordedResult toyRecordedRun_eq (by decide)).1,
    (C2_call_sequence id id (toyStd ℚ) (toySol ℚ) (toyX ℚ) [0, 0] [3, 2, 1] 5 (1 / 2)
      true true 1 (toyOpts ℚ) toyRecordedResult toyRecordedRun_eq (by decide)).2.2⟩

/-- Instance of claim C3 on the small run. -/
theorem C3_supplied_grid_verbatim_witness :
    ([3, 2, 1] : List ℚ) ≠ [] ∧
    ∃ r, admm_enet id id (toyStd ℚ) (toySol ℚ) (toyX ℚ) [0, 0] [3, 2, 1] 5 (1 / 2)
        true true 1 (toyOpts ℚ) = some r ∧ r.lambda = [3, 2, 1] :=
  ⟨List.cons_ne_nil _ _, by
    obtain ⟨r, _, h1, h2, _⟩ :=
      C3_supplied_grid_verbatim id id (toyStd ℚ) (toySol ℚ) (toyX ℚ) [0, 0] [3, 2, 1] 5 (1 / 2)
        true true 1 (toyOpts ℚ) (List.cons_ne_nil _ _)
    exact ⟨r, h1, h2⟩⟩

/-- Instance of claim C7 on the small run. -/
theorem C7_output_shape_and_alignment_witness :
    toyRun = some toyResult ∧
    toyResult.beta.rows = 3 + 1 ∧
    toyResult.beta.cols = toyResult.lambda.length ∧
    toyResult.niter.length = toyResult.lambda.length ∧
    ∃ o, (spec_path_outcomes (toyStd ℚ) (toySol ℚ) (toyX ℚ) [0, 0] true true 1 (toyOpts ℚ)
        toyResult.lambda)[1]? = some o ∧ toyResult.niter[1]? = some o.2 := by
  obtain ⟨h1, h2, h3, h4, _⟩ :=
    C7_output_shape_and_alignment id id (toyStd ℚ) (toySol ℚ) (toyX ℚ) [0, 0] [3, 2, 1] 5
      (1 / 2) true true 1 (toyOpts ℚ) toyResult toyRun_eq
  obtain ⟨o, ho, _, hn, _⟩ := h4 1 2 rfl
  exact ⟨toyRun_eq, h1, h2, h3, o, ho, hn⟩

/-- Instance of claim C8 on the small run, with every count replaced by the cap. -/
theorem C8_iteration_cap_is_no_error_witness :
    (([3, 2, 1] : List ℚ) ≠ [] ∨ (0 : Int) ≤ 5) ∧
    ∃ r, toyRun = some r ∧ r.lambda = [3, 2, 1] ∧
      admm_enet id id (toyStd ℚ) ((toySol ℚ).mapCount (fun _ => 3)) (toyX ℚ) [0, 0] [3, 2, 1]
          5 (1 / 2) true true 1 (toyOpts ℚ)
        = some { r with niter := r.niter.map (fun _ => 3) } :=
  ⟨Or.inl (List.cons_ne_nil _ _), by
    obtain ⟨r, h1, h2, _, _, _, h5⟩ :=
      C8_iteration_cap_is_no_error id id (toyStd ℚ) (toySol ℚ) (toyX ℚ) [0, 0] [3, 2, 1] 5
        (1 / 2) true true 1 (toyOpts ℚ) (Or.inl (List.cons_ne_nil _ _))
    exact ⟨r, h1, h2 (List.cons_ne_nil _ _), h5 _⟩⟩

/-- Instance of claim C9 on the small run: the second path point. -/
theorem C9_solver_penalty_witness :
    toyRecordedRun = some toyRecordedResult ∧ toyRecordedResult.lambda[1]? = some 2 ∧
    (toyStd ℚ).get_scaleY () = 1 ∧ (∀ a : ℚ, a / 1 = a) ∧ (∀ a b : ℚ, a * b = b * a) ∧
    (toyRecordedResult.solver.2[2 * 1]?).bind Call.penalty? = some (((toyX ℚ).rows : ℚ) * 2) :=
  ⟨toyRecordedRun_eq, rfl, rfl, div_one, mul_comm,
    ((C9_solver_penalty id id (toyStd ℚ) (toySol ℚ) (toyX ℚ) [0, 0] [3, 2, 1] 5 (1 / 2)
      true true 1 (toyOpts ℚ) toyRecordedResult toyRecordedRun_eq).2 1 2 rfl).2 rfl div_one
      mul_comm⟩

/-- Instance of claim C4: three generated values from `λ_max = 1/2` with ratio `1/4`. -/
theorem C4_generated_grid_values_witness :
    2 ≤ 3 ∧ (0 : ℝ) < 1 / 4 ∧ (1 / 4 : ℝ) < 1 ∧ (0 : ℝ) < 1 / 2 ∧
    ∃ r, admm_enet Real.log Real.exp (toyStd ℝ) (toySol ℝ) (toyX ℝ) [0, 0] [] ((3 : Nat) : Int)
        (1 / 4) true true 1 (toyOpts ℝ) = some r ∧
      r.lambda.length = 3 ∧ r.lambda[0]? = some (1 / 2) ∧
      r.lambda[3 - 1]? = some (1 / 4 * (1 / 2)) :=
  ⟨by decide, by norm_num, by norm_num, by norm_num, by
    obtain ⟨r, h1, h2, _, h4, h5, _⟩ :=
      C4_generated_grid_values (toyStd ℝ) (toySol ℝ) (toyX ℝ) [0, 0] 3 (1 / 4) true true 1
        (toyOpts ℝ) (1 / 2) (by simp [toyStd, toySol, toyX]) (by decide) (by norm_num)
        (by norm_num) (by norm_num)
    exact ⟨r, h1, h2, h4, h5⟩⟩

/-- Instance of claim C5: three generated values from `λ_max = 1/2` with ratio `1/4`. -/
theorem C5_generated_grid_decreasing_positive_witness :
    1 ≤ 3 ∧ (0 : ℝ) < 1 / 4 ∧ (1 / 4 : ℝ) < 1 ∧ (0 : ℝ) < 1 / 2 ∧
    ∃ r, admm_enet Real.log Real.exp (toyStd ℝ) (toySol ℝ) (toyX ℝ) [0, 0] [] ((3 : Nat) : Int)
        (1 / 4) true true 1 (toyOpts ℝ) = some r ∧
      r.lambda.length = 3 ∧
      r.lambda.Pairwise (fun a b => b < a) ∧
      ∀ v ∈ r.lambda, 0 < v :=
  ⟨by decide, by norm_num, by norm_num, by norm_num,
    C5_generated_grid_decreasing_positive (toyStd ℝ) (toySol ℝ) (toyX ℝ) [0, 0] 3 (1 / 4)
      true true 1 (toyOpts ℝ) (1 / 2) (by simp [toyStd, toySol, toyX]) (by decide)
      (by norm_num) (by norm_num) (by norm_num)⟩

/-- Instance of claim C10: the small solver's `get_lambda_zero()` is `1`. -/
theorem C10_first_penalty_is_lambda_zero_witness :
    2 ≤ 3 ∧ 0 < (toyX ℝ).rows ∧ (0 : ℝ) < (toyStd ℝ).get_scaleY () ∧
    (0 : ℝ) < (toySol ℝ).get_lambda_zero [] ∧
    ∃ r, admm_enet Real.log Real.exp (toyStd ℝ) (toySol ℝ).recording (toyX ℝ) [0, 0] []
        ((3 : Nat) : Int) (1 / 4) true true 1 (toyOpts ℝ) = some r ∧
      r.solver.2[0]? = some (Call.init 1 1) :=
  ⟨by decide, by decide, by simp [toyStd], by simp [toySol], by
    obtain ⟨r, h1, _, _, h2, _⟩ :=
      C10_first_penalty_is_lambda_zero (toyStd ℝ) (toySol ℝ) (toyX ℝ) [0, 0] 3 (1 / 4) true true
        1 (toyOpts ℝ) (by decide) (by decide) (by simp [toyStd]) (by simp [toySol])
    exact ⟨r, h1, h2⟩⟩

end Enet
